import Mathlib

/-!
Verification development for the fuel-stop planner of the fuel-planner
repository (src/app.js).  The planning core — `calculateFuelStops` and its
helpers `findStationsAlongRoute`, `findStateBorderCrossings`,
`findBestStationInRange`, `findClosestReachableStation`,
`findAnyReachableStation`, `createStopFromStation` — is embedded shallowly:

* JavaScript numbers are modelled by `ℚ`; `Math.round` is `jsRound`
  (round half towards positive infinity, as in JS), `Math.ceil` is `Int.ceil`,
  `x.toFixed(1)` is `toFixed1`.
* The great-circle helper `haversineDistance` is transcendental, so the
  geographic distance is a parameter `geoDist : ℚ × ℚ → ℚ × ℚ → ℚ` of the
  whole development; concrete instances below use the taxicab metric, whose
  relevant values (a station sitting a given lateral offset from a route
  point) are realisable by the real haversine as well.
* `Array.prototype.sort` (spec: a stable sort) is modelled by the stable
  `List.insertionSort` with the relation “comparator ≤ 0”.
* JS coercions are made explicit: a `null` price compared with `<=` behaves
  as `0` (`jsNum`), while `price || d` maps both `null` and `0` to the
  default `d` (`jsDefault`).
* The `while` loop of `calculateFuelStops` is `planStep` (one loop body
  execution, source lines 1720–1940) iterated by the gas-indexed
  `fuelLoopAux`; `fuelLoopRun` supplies gas that is provably sufficient
  (`fuelLoopAux_gas_irrelevant` below), so the embedding is executable and
  gas-independent.  Ghost instrumentation fields (`standardIds`,
  `expandedIds`, `emer`, `failed`) record which commit path produced a stop,
  how often the dead emergency branch was entered, and whether the loop hit
  the “no reachable station” failure exit; they influence nothing else.
* Presentation-only fields of the stop record (address, exit label, logo,
  time, coordinates, and the DOM-reading `isFull` flag) are omitted from the
  `Stop` structure; every field the specification's claims talk about is kept.
-/

/-- JS `Math.round`: round half towards `+∞`. -/
def jsRound (x : ℚ) : ℤ := ⌊x + 1/2⌋

/-- JS `Number.prototype.toFixed(1)` followed by `parseFloat`: round to one
decimal place. -/
def toFixed1 (x : ℚ) : ℚ := (jsRound (10 * x) : ℚ) / 10

/-- JS relational coercion for a nullable number: `null` compares as `0`. -/
def jsNum (p : Option ℚ) : ℚ := p.getD 0

/-- JS `p || d` on a nullable number: both `null` and `0` are falsy and give
the default `d`. -/
def jsDefault (p : Option ℚ) (d : ℚ) : ℚ :=
  match p with
  | none => d
  | some q => if q = 0 then d else q

/-- CONFIG.priceThresholds.excellent (2.95 $/gal). -/
def excellentThreshold : ℚ := 59/20

/-- CONFIG.priceThresholds.good (3.30 $/gal). -/
def goodThreshold : ℚ := 33/10

/-- CONFIG.priceThresholds.fair (3.60 $/gal). -/
def fairThreshold : ℚ := 18/5

/-- CONFIG.avgNationalPrice (3.75 $/gal). -/
def avgNationalPrice : ℚ := 15/4

/-- CONFIG.fullTankStates. -/
def highPriceStates : List String := ["CA", "WA"]

/-- CONFIG.destinationFuelTarget (3/4 tank). -/
def destinationFuelTarget : ℚ := 3/4

/-- CONFIG.minArrivalGallons (30 gallons). -/
def minArrivalGallons : ℚ := 30

/-- The corridor buffer of `findStationsAlongRoute` (3 miles). -/
def routeBuffer : ℚ := 3

/-- A station as stored in the dataset (`state.stations`): id, coordinates,
state code and nullable price. -/
structure Station where
  id : ℕ
  lat : ℚ
  lng : ℚ
  state : String
  price : Option ℚ
deriving DecidableEq, Repr

/-- A station annotated by the corridor filter with `distanceFromStart` and
`distanceFromRoute`. -/
structure RStation where
  id : ℕ
  state : String
  price : Option ℚ
  distanceFromStart : ℚ
  distanceFromRoute : ℚ
deriving DecidableEq, Repr

/-- The route object: polyline coordinates, total `distance` (miles) and
`duration` (hours). -/
structure RouteData where
  coordinates : List (ℚ × ℚ)
  distance : ℚ
  duration : ℚ
deriving DecidableEq, Repr

/-- A border crossing produced by `findStateBorderCrossings`. -/
structure Crossing where
  enteringState : String
  borderDistance : ℚ
  firstStationInState : RStation
  lastStationBeforeBorder : Option RStation
deriving DecidableEq, Repr

/-- The output stop record built by `createStopFromStation`; presentation-only
fields (address, exit, logo, time, coordinates, DOM-dependent `isFull`) are
omitted. -/
structure Stop where
  number : ℕ
  station : RStation
  price : ℚ
  priceCategory : String
  distance : ℤ
  gallonsToAdd : ℤ
  fuelRemaining : ℚ
  fillAmount : ℤ
  savings : ℤ
deriving DecidableEq, Repr

/-- `createStopFromStation(stopNumber, station, gallonsToAdd, fillAmount,
routeData, fuelArriving)` (source lines 2162–2207); `routeData` only feeds the
omitted `time` field. -/
def createStopFromStation (stopNumber : ℕ) (station : RStation)
    (gallonsToAdd : ℤ) (fillAmount : ℚ) (fuelArriving : ℚ) : Stop :=
  let price := jsDefault station.price 3
  let priceCategory :=
    if price ≤ excellentThreshold then "excellent"
    else if price ≤ goodThreshold then "good"
    else if price ≤ fairThreshold then "fair"
    else "high"
  { number := stopNumber
    station := station
    price := price
    priceCategory := priceCategory
    distance := jsRound station.distanceFromStart
    gallonsToAdd := gallonsToAdd
    fuelRemaining := toFixed1 fuelArriving
    fillAmount := jsRound fillAmount
    savings := max 0 (jsRound ((avgNationalPrice - price) * (gallonsToAdd : ℚ))) }

/-- The comparator of `findBestStationInRange` (source lines 1981–1995):
price first (ties within 0.05), then distance from route (ties within 0.5),
then prefer the larger `distanceFromStart`. -/
def bestCmp (a b : RStation) : ℚ :=
  if 1/20 ≤ |jsNum a.price - jsNum b.price| then jsNum a.price - jsNum b.price
  else if 1/2 < |a.distanceFromRoute - b.distanceFromRoute| then
    a.distanceFromRoute - b.distanceFromRoute
  else b.distanceFromStart - a.distanceFromStart

/-- `a` may stay before `b` under `bestCmp` (stable-sort relation). -/
def bestLe (a b : RStation) : Prop := bestCmp a b ≤ 0

instance : DecidableRel bestLe := fun a b =>
  inferInstanceAs (Decidable (bestCmp a b ≤ 0))

/-- `findBestStationInRange(minDistance, maxDistance, stations, usedStations)`
(source lines 1950–2002). -/
def findBestStationInRange (minDistance maxDistance : ℚ)
    (stations : List RStation) (usedStations : Finset ℕ) : Option RStation :=
  let reachableStations := stations.filter fun s =>
    decide (s.id ∉ usedStations) && decide (minDistance ≤ s.distanceFromStart) &&
      decide (s.distanceFromStart ≤ maxDistance)
  if reachableStations.isEmpty then none else
  let excellent := reachableStations.filter fun s =>
    decide (jsNum s.price ≤ excellentThreshold)
  let good := reachableStations.filter fun s =>
    decide (excellentThreshold < jsNum s.price) && decide (jsNum s.price ≤ goodThreshold)
  let fair := reachableStations.filter fun s =>
    decide (goodThreshold < jsNum s.price) && decide (jsNum s.price ≤ fairThreshold)
  let high := reachableStations.filter fun s =>
    decide (fairThreshold < jsNum s.price)
  let candidates :=
    if ¬ excellent.isEmpty then excellent
    else if ¬ good.isEmpty then good
    else if ¬ fair.isEmpty then fair
    else high
  (List.insertionSort bestLe candidates).head?

/-- The comparator of `findClosestReachableStation` (source lines 2022–2028):
distance from the current position first (ties within 10), then distance from
the route. -/
def closestCmp (pos : ℚ) (a b : RStation) : ℚ :=
  if 10 < |(a.distanceFromStart - pos) - (b.distanceFromStart - pos)| then
    (a.distanceFromStart - pos) - (b.distanceFromStart - pos)
  else a.distanceFromRoute - b.distanceFromRoute

/-- Stable-sort relation for `closestCmp`. -/
def closestLe (pos : ℚ) (a b : RStation) : Prop := closestCmp pos a b ≤ 0

instance (pos : ℚ) : DecidableRel (closestLe pos) := fun a b =>
  inferInstanceAs (Decidable (closestCmp pos a b ≤ 0))

/-- `findClosestReachableStation(currentPosition, maxRange, stations,
usedStations)` (source lines 2006–2031).  The JS copies each candidate and adds
a `distanceFromCurrent` field used only inside the comparator; here the
comparator recomputes `distanceFromStart - pos` instead, and the original
record is returned. -/
def findClosestReachableStation (currentPosition maxRange : ℚ)
    (stations : List RStation) (usedStations : Finset ℕ) : Option RStation :=
  let candidates := stations.filter fun s =>
    decide (s.id ∉ usedStations) && decide (currentPosition < s.distanceFromStart) &&
      decide (s.distanceFromStart - currentPosition ≤ maxRange) &&
      decide (0 < s.distanceFromStart - currentPosition)
  (List.insertionSort (closestLe currentPosition) candidates).head?

/-- The comparator of `findAnyReachableStation` (source lines 2050–2059):
price with the `|| 4` default first (ties within 0.05, strict), then distance
from route (ties within 0.5), then prefer the larger distance from the
current position. -/
def anyCmp (pos : ℚ) (a b : RStation) : ℚ :=
  if 1/20 < |jsDefault a.price 4 - jsDefault b.price 4| then
    jsDefault a.price 4 - jsDefault b.price 4
  else if 1/2 < |a.distanceFromRoute - b.distanceFromRoute| then
    a.distanceFromRoute - b.distanceFromRoute
  else (b.distanceFromStart - pos) - (a.distanceFromStart - pos)

/-- Stable-sort relation for `anyCmp`. -/
def anyLe (pos : ℚ) (a b : RStation) : Prop := anyCmp pos a b ≤ 0

instance (pos : ℚ) : DecidableRel (anyLe pos) := fun a b =>
  inferInstanceAs (Decidable (anyCmp pos a b ≤ 0))

/-- `findAnyReachableStation(currentPosition, maxRange, stations,
usedStations)` (source lines 2034–2062), with the same `distanceFromCurrent`
modelling note as `findClosestReachableStation`. -/
def findAnyReachableStation (currentPosition maxRange : ℚ)
    (stations : List RStation) (usedStations : Finset ℕ) : Option RStation :=
  let reachable := stations.filter fun s =>
    decide (s.id ∉ usedStations) && decide (currentPosition < s.distanceFromStart) &&
      decide (s.distanceFromStart - currentPosition ≤ maxRange) &&
      decide (0 < s.distanceFromStart - currentPosition)
  (List.insertionSort (anyLe currentPosition) reachable).head?

/-- The backward scan of `findStateBorderCrossings` (source lines 2080–2086):
walk back from the station before the crossing and return the nearest
preceding station outside the high-price set.  `seen` holds the stations
strictly before the current one, in route order. -/
def lastNonHighPrice (hps : List String) (seen : List RStation) : Option RStation :=
  seen.reverse.find? fun s => decide (s.state ∉ hps)

/-- The main scan of `findStateBorderCrossings` (source lines 2073–2102):
`seen` holds the already-visited stations in order, `prevState` the previous
station's state. -/
def crossingsScan (hps : List String) :
    List RStation → String → List RStation → List Crossing
  | seen, prevState, [] =>
    let _ := seen
    let _ := prevState
    []
  | seen, prevState, st :: rest =>
    if st.state ∈ hps ∧ prevState ∉ hps then
      { enteringState := st.state
        borderDistance := st.distanceFromStart
        firstStationInState := st
        lastStationBeforeBorder := lastNonHighPrice hps seen } ::
        crossingsScan hps (seen ++ [st]) st.state rest
    else crossingsScan hps (seen ++ [st]) st.state rest

/-- `findStateBorderCrossings(stationsAlongRoute, highPriceStates)` (source
lines 2066–2105); fewer than two stations yield no crossings. -/
def findStateBorderCrossings (l : List RStation) (hps : List String) :
    List Crossing :=
  match l with
  | [] => []
  | [_] => []
  | first :: rest => crossingsScan hps [first] first.state rest

/-- The inner loop of `findStationsAlongRoute` (source lines 2121–2128):
scan the polyline keeping the strictly smallest distance seen so far together
with the index of its first occurrence. -/
def closestPointScan (d : ℚ × ℚ → ℚ) :
    List (ℚ × ℚ) → ℕ → Option (ℚ × ℕ) → Option (ℚ × ℕ)
  | [], _, acc => acc
  | c :: rest, i, acc =>
    match acc with
    | none => closestPointScan d rest (i + 1) (some (d c, i))
    | some (m, j) =>
      if d c < m then closestPointScan d rest (i + 1) (some (d c, i))
      else closestPointScan d rest (i + 1) (some (m, j))

/-- One station's corridor test and annotation (source lines 2116–2141):
keep the station if its minimum distance to the polyline is at most
`routeBuffer`, annotating with
`distanceFromStart = closestIndex / (pointCount − 1) × distance` and
`distanceFromRoute = minimum distance`. -/
def annotateStation (geoDist : ℚ × ℚ → ℚ × ℚ → ℚ) (rt : RouteData)
    (st : Station) : Option RStation :=
  match closestPointScan (fun c => geoDist (st.lat, st.lng) c) rt.coordinates 0 none with
  | none => none
  | some (m, i) =>
    if m ≤ routeBuffer then
      some { id := st.id, state := st.state, price := st.price
             distanceFromStart := ((i : ℚ) / ((rt.coordinates.length : ℚ) - 1)) * rt.distance
             distanceFromRoute := m }
    else none

/-- The comparator of the corridor filter's final sort (source lines
2146–2154): by `distanceFromStart`, except that stations within 5 miles of
each other along the route compare by `distanceFromRoute`. -/
def alongCmp (a b : RStation) : ℚ :=
  if |a.distanceFromStart - b.distanceFromStart| < 5 then
    a.distanceFromRoute - b.distanceFromRoute
  else a.distanceFromStart - b.distanceFromStart

/-- Stable-sort relation for `alongCmp`. -/
def alongLe (a b : RStation) : Prop := alongCmp a b ≤ 0

instance : DecidableRel alongLe := fun a b =>
  inferInstanceAs (Decidable (alongCmp a b ≤ 0))

/-- `findStationsAlongRoute(routeData)` (source lines 2107–2159); the global
`state.stations` dataset is an explicit parameter of the embedding. -/
def findStationsAlongRoute (geoDist : ℚ × ℚ → ℚ × ℚ → ℚ)
    (dataset : List Station) (rt : RouteData) : List RStation :=
  List.insertionSort alongLe (dataset.filterMap (annotateStation geoDist rt))

/-- The read-only environment of one planning run. -/
structure PlanEnv where
  stations : List RStation
  crossings : List Crossing
  D : ℚ
  tank : ℚ
  mpg : ℚ
  target : ℚ
deriving DecidableEq, Repr

/-- The mutable loop state of `calculateFuelStops`, plus ghost
instrumentation: `standardIds` / `expandedIds` record the ids committed by the
narrow-window standard path and by the expanded any-reachable path, `emer`
counts entries into the dead emergency branch (source line 1887), and `failed`
marks the “no reachable station” failure exits (source lines 1873–1876 and
1916). -/
structure LoopState where
  fuel : ℚ
  pos : ℚ
  used : Finset ℕ
  stops : List Stop
  standardIds : List ℕ
  expandedIds : List ℕ
  emer : ℕ
  failed : Bool
deriving DecidableEq

/-- Result of one loop body execution: `done` leaves the loop (a `break`),
`next` runs another iteration (`continue` or falling off the body's end). -/
inductive StepOut where
  | done (s : LoopState)
  | next (s : LoopState)
deriving DecidableEq

/-- The border `find` predicate (source lines 1728–1732). -/
def borderFindPred (pos : ℚ) (used : Finset ℕ) (c : Crossing) : Bool :=
  decide (pos < c.borderDistance) &&
    match c.lastStationBeforeBorder with
    | some st => decide (st.id ∉ used)
    | none => false

/-- The near-miss block of the loop body (source lines 1775–1826): the trip
can be finished but below the reserve target; search an extended window with
the price-priority policy and commit at most one final stop, then leave the
loop. -/
def planNearMiss (env : PlanEnv) (s : LoopState) (usableRange : ℚ) : StepOut :=
  let finalSearchMax :=
    min (s.pos + usableRange) (s.pos + max (usableRange * (85/100)) 50)
  match findBestStationInRange s.pos finalSearchMax env.stations s.used with
  | some stationInRange =>
    let distanceToStation := stationInRange.distanceFromStart - s.pos
    let fuelAtStation := s.fuel - distanceToStation / env.mpg
    let willEnterHighPriceState := env.crossings.any fun c =>
      decide (stationInRange.distanceFromStart < c.borderDistance)
    let fillTo :=
      if willEnterHighPriceState ∨ stationInRange.state ∈ highPriceStates then env.tank
      else min env.tank
        ((⌈(env.D - stationInRange.distanceFromStart) / env.mpg + env.target⌉ : ℚ) + 5)
    let gallonsToAdd := max 0 (jsRound (fillTo - fuelAtStation))
    if 0 < gallonsToAdd then
      .done { s with
        stops := s.stops ++ [createStopFromStation (s.stops.length + 1)
          stationInRange gallonsToAdd fillTo fuelAtStation]
        used := insert stationInRange.id s.used }
    else .done s
  | none => .done s

/-- The standard selection block of the loop body (source lines 1828–1939):
narrow-window price-priority search, the expanded any-reachable escalation,
the discard of stations that would be reached below the 30-gallon reserve,
the dead emergency branch, and the full-tank commit. -/
def planStandard (env : PlanEnv) (s : LoopState)
    (usableRange currentRange : ℚ) : StepOut :=
  let safeRange := usableRange * (90/100)
  let maxReachableDistance := s.pos + max safeRange 10
  match findBestStationInRange (s.pos + 20) maxReachableDistance env.stations s.used with
  | none =>
    match findAnyReachableStation s.pos (s.fuel * env.mpg * (95/100))
        env.stations s.used with
    | some expandedStation =>
      let distToStation := expandedStation.distanceFromStart - s.pos
      let fuelAtStation := s.fuel - distToStation / env.mpg
      .next { s with
        stops := s.stops ++ [createStopFromStation (s.stops.length + 1)
          expandedStation (jsRound (env.tank - max 0 fuelAtStation)) env.tank
          (max 0 fuelAtStation)]
        used := insert expandedStation.id s.used
        fuel := env.tank
        pos := expandedStation.distanceFromStart
        expandedIds := expandedStation.id :: s.expandedIds }
    | none => .done { s with failed := true }
  | some nextStation =>
    let distanceToStation := nextStation.distanceFromStart - s.pos
    let fuelAtStation := s.fuel - distanceToStation / env.mpg
    if fuelAtStation < minArrivalGallons then
      .next { s with used := insert nextStation.id s.used }
    else if fuelAtStation < minArrivalGallons then
      match findClosestReachableStation s.pos (currentRange * (95/100))
          env.stations s.used with
      | some emergencyStation =>
        let distToEmergency := emergencyStation.distanceFromStart - s.pos
        let fuelAtEmergency := s.fuel - distToEmergency / env.mpg
        .next { s with
          stops := s.stops ++ [createStopFromStation (s.stops.length + 1)
            emergencyStation (jsRound (env.tank - fuelAtEmergency)) env.tank
            fuelAtEmergency]
          used := insert emergencyStation.id s.used
          fuel := env.tank
          pos := emergencyStation.distanceFromStart
          emer := s.emer + 1 }
      | none => .done { s with emer := s.emer + 1, failed := true }
    else
      let fillTo := env.tank
      let gallonsToAdd := max 0 (jsRound (fillTo - fuelAtStation))
      .next { s with
        stops := s.stops ++ [createStopFromStation (s.stops.length + 1)
          nextStation gallonsToAdd fillTo fuelAtStation]
        used := insert nextStation.id s.used
        fuel := fillTo
        pos := nextStation.distanceFromStart
        standardIds := nextStation.id :: s.standardIds }

/-- The loop body after the border-priority check (source lines 1764–1940):
destination-reachability check, then the near-miss path or the standard
selection path. -/
def planRest (env : PlanEnv) (s : LoopState)
    (remainingDistance usableRange currentRange : ℚ) : StepOut :=
  let fuelAtDestination := s.fuel - remainingDistance / env.mpg
  if env.target ≤ fuelAtDestination then .done s
  else if 0 ≤ fuelAtDestination ∧ fuelAtDestination < env.target then
    planNearMiss env s usableRange
  else planStandard env s usableRange currentRange

/-- One full execution of the loop body of `calculateFuelStops` (source lines
1720–1940), starting with the border-priority check. -/
def planStep (env : PlanEnv) (s : LoopState) : StepOut :=
  let remainingDistance := env.D - s.pos
  let currentRange := s.fuel * env.mpg
  let usableRangeGallons := max 0 (s.fuel - minArrivalGallons)
  let usableRange := usableRangeGallons * env.mpg
  match env.crossings.find? (borderFindPred s.pos s.used) with
  | some nextBorderCrossing =>
    match nextBorderCrossing.lastStationBeforeBorder with
    | some lastStationBeforeBorder =>
      let distanceToLastStation := lastStationBeforeBorder.distanceFromStart - s.pos
      if 0 < distanceToLastStation ∧ distanceToLastStation ≤ usableRange then
        let fuelUsedToStation := distanceToLastStation / env.mpg
        let fuelAtStation := s.fuel - fuelUsedToStation
        let gallonsToAdd := max 0 (jsRound (env.tank - fuelAtStation))
        if 0 < gallonsToAdd then
          .next { s with
            stops := s.stops ++ [createStopFromStation (s.stops.length + 1)
              lastStationBeforeBorder gallonsToAdd env.tank fuelAtStation]
            used := insert lastStationBeforeBorder.id s.used
            fuel := env.tank
            pos := lastStationBeforeBorder.distanceFromStart }
        else planRest env s remainingDistance usableRange currentRange
      else planRest env s remainingDistance usableRange currentRange
    | none => planRest env s remainingDistance usableRange currentRange
  | none => planRest env s remainingDistance usableRange currentRange

/-- All station ids the loop can ever insert into `usedStations`: the ids of
the corridor stations plus the ids of the crossings' last-before-border
stations (for a well-formed environment the latter are a subset of the
former). -/
def allIdsF (env : PlanEnv) : Finset ℕ :=
  ((env.stations.map fun s => s.id) ++
    ((env.crossings.filterMap fun c => c.lastStationBeforeBorder).map fun s => s.id)).toFinset

/-- The `while` loop of `calculateFuelStops`, indexed by gas; with gas at
least `(allIdsF env \ s.used).card + 1` the gas never runs out
(`fuelLoopAux_gas_irrelevant`). -/
def fuelLoopAux (env : PlanEnv) : ℕ → LoopState → LoopState
  | 0, s => s
  | gas + 1, s =>
    if s.pos < env.D then
      match planStep env s with
      | .done s' => s'
      | .next s' => fuelLoopAux env gas s'
    else s

/-- The `while` loop of `calculateFuelStops`, run with sufficient gas. -/
def fuelLoopRun (env : PlanEnv) (s : LoopState) : LoopState :=
  fuelLoopAux env ((allIdsF env \ s.used).card + 1) s

/-- The environment `calculateFuelStops` builds before entering its loop
(source lines 1692–1712). -/
def planEnvOf (geoDist : ℚ × ℚ → ℚ × ℚ → ℚ) (dataset : List Station)
    (rt : RouteData) (tankSize mpg : ℚ) : PlanEnv :=
  { stations := findStationsAlongRoute geoDist dataset rt
    crossings := findStateBorderCrossings (findStationsAlongRoute geoDist dataset rt)
      highPriceStates
    D := rt.distance
    tank := tankSize
    mpg := mpg
    target := tankSize * destinationFuelTarget }

/-- The initial loop state of one planning run. -/
def initState (currentGallons : ℚ) : LoopState :=
  { fuel := currentGallons, pos := 0, used := ∅, stops := []
    standardIds := [], expandedIds := [], emer := 0, failed := false }

/-- The final loop state of one planning run of `calculateFuelStops`. -/
def planRunOf (geoDist : ℚ × ℚ → ℚ × ℚ → ℚ) (dataset : List Station)
    (rt : RouteData) (currentGallons tankSize mpg : ℚ) : LoopState :=
  fuelLoopRun (planEnvOf geoDist dataset rt tankSize mpg) (initState currentGallons)

/-- The value `calculateFuelStops` returns: `{ stops, finalFuel }`. -/
structure PlanOutput where
  stops : List Stop
  finalFuel : ℚ
deriving DecidableEq, Repr

/-- `calculateFuelStops(routeData, currentGallons, tankSize, mpg, endCoords)`
(source lines 1692–1946); `endCoords` is unused by the source body and
omitted. -/
def calculateFuelStops (geoDist : ℚ × ℚ → ℚ × ℚ → ℚ) (dataset : List Station)
    (rt : RouteData) (currentGallons tankSize mpg : ℚ) : PlanOutput :=
  let r := planRunOf geoDist dataset rt currentGallons tankSize mpg
  { stops := r.stops
    finalFuel := max (tankSize * destinationFuelTarget)
      (r.fuel - (rt.distance - r.pos) / mpg) }

/-- Taxicab metric: the concrete geographic distance used by the closed
counterexamples and witnesses (any metric placing a station at a given
lateral offset from a route point realises the same scenario). -/
def taxiDist (p q : ℚ × ℚ) : ℚ := |p.1 - q.1| + |p.2 - q.2|

/-- The state carried by a `StepOut`, whichever way the iteration ended. -/
def StepOut.state : StepOut → LoopState
  | .done s => s
  | .next s => s

/-- Number of loop iterations that run the body and come back to the loop
head (a `continue` or falling off the body's end); the final iteration that
breaks or fails the loop condition is not counted. -/
def fuelLoopIters (env : PlanEnv) : ℕ → LoopState → ℕ
  | 0, _ => 0
  | gas + 1, s =>
    if s.pos < env.D then
      match planStep env s with
      | .done _ => 0
      | .next s' => fuelLoopIters env gas s' + 1
    else 0

/-- Price-tier index of a nullable price under the fixed thresholds
(0 excellent ≤ 2.95, 1 good ≤ 3.30, 2 fair ≤ 3.60, 3 high), with the JS
relational coercion of `null`. -/
def tierOf (p : Option ℚ) : ℕ :=
  if jsNum p ≤ excellentThreshold then 0
  else if jsNum p ≤ goodThreshold then 1
  else if jsNum p ≤ fairThreshold then 2
  else 3

/-- Invariant of the planner state that is visible in the returned value:
distinct station ids, contiguous 1-based stop numbers, strictly increasing
stop positions, non-negative arrival fuel, and a 30-gallon arrival reserve on
every stop committed by the narrow-window standard path. -/
structure PlanInvOut (s : LoopState) : Prop where
  nodup : (s.stops.map fun p => p.station.id).Nodup
  numbered : s.stops.map (fun p => p.number) = List.range' 1 s.stops.length
  chain : List.Chain'
    (fun a b => a.station.distanceFromStart < b.station.distanceFromStart) s.stops
  arrivalNonneg : ∀ p ∈ s.stops, 0 ≤ p.fuelRemaining
  stdReserve : ∀ p ∈ s.stops, p.station.id ∈ s.standardIds →
    minArrivalGallons ≤ p.fuelRemaining

/-- Full loop-head invariant: the visible parts plus the bookkeeping facts
that make them inductive (committed ids are marked used, ghost path tags are
marked used, the last stop is at or behind the current position, the tank is
full after any committed stop, fuel is non-negative). -/
structure PlanInv (env : PlanEnv) (s : LoopState) extends PlanInvOut s : Prop where
  idsUsed : ∀ i ∈ s.stops.map (fun p => p.station.id), i ∈ s.used
  stdUsed : ∀ i ∈ s.standardIds, i ∈ s.used
  lastLe : ∀ p ∈ s.stops.getLast?, p.station.distanceFromStart ≤ s.pos
  fuelFull : s.stops ≠ [] → s.fuel = env.tank
  fuelNonneg : 0 ≤ s.fuel

/-- What one loop iteration guarantees: the visible invariant holds for the
resulting state, and a continuing iteration re-establishes the full loop-head
invariant. -/
def StepInv (env : PlanEnv) (out : StepOut) : Prop :=
  PlanInvOut out.state ∧ ∀ s1, out = .next s1 → PlanInv env s1

/-- C1 counterexample data, first run: a route of 4 miles entering California
at mile 4 with the last Oregon station at mile 2; the truck starts full, so
the border fill rounds to 0 gallons and no stop is committed. -/
def crossRoute1 : RouteData := ⟨[(0, 0), (1, 0), (2, 0)], 4, 1⟩

/-- Stations of the first C1 counterexample run. -/
def crossStations1 : List Station := [⟨1, 1, 0, "OR", some 3⟩, ⟨2, 2, 0, "CA", some 4⟩]

/-- C1 counterexample data, second run: the corridor sort's within-5-miles
secondary ordering places the Oregon station (mile 8, 0.5 miles off route)
before the California station (mile 4, 2 miles off route), so the committed
border stop lies beyond the recorded border distance. -/
def crossRoute2 : RouteData := ⟨[(0, 0), (1, 0), (2, 0)], 8, 1⟩

/-- Stations of the second C1 counterexample run. -/
def crossStations2 : List Station := [⟨1, 2, 1/2, "OR", some 3⟩, ⟨2, 1, 2, "CA", some 4⟩]

/-- C2 counterexample data: a 200-mile route, one station at mile 50, start
fuel 10 gallons — only the expanded any-reachable search can reach it, and the
truck arrives with 5 gallons, below the 30-gallon reserve. -/
def expRoute : RouteData := ⟨[(0, 0), (1, 0), (2, 0), (3, 0), (4, 0)], 200, 4⟩

/-- Station of the C2 counterexample run. -/
def expStations : List Station := [⟨7, 1, 0, "NV", some 3⟩]

/-- A 100-mile route with no corridor stations, used by C4 (failure halt with
5 gallons vs. successful no-stop run with 85 gallons) and C6. -/
def failRoute : RouteData := ⟨[(0, 0), (1, 0)], 100, 2⟩

/-- A zero-distance route (C5). -/
def zeroRoute : RouteData := ⟨[(0, 0), (1, 0)], 0, 0⟩

/-- C8 counterexample data: two stations whose along-route positions are 0 and
4 miles (within the 5-mile secondary-sort window) with lateral offsets 3 and
0, so the sorted output lists mile 4 before mile 0. -/
def unsortedRoute : RouteData := ⟨[(0, 0), (1, 0)], 4, 1⟩

/-- Stations of the C8 counterexample. -/
def unsortedStations : List Station := [⟨1, 0, 3, "NV", some 3⟩, ⟨2, 1, 0, "NV", some 3⟩]

/-- Witness data shared by C2, C3 and C9: a 2000-mile route with stations at
miles 600 and 1200, both committed by the narrow-window standard path. -/
def twoStopRoute : RouteData :=
  ⟨[(0, 0), (1, 0), (2, 0), (3, 0), (4, 0), (5, 0), (6, 0), (7, 0), (8, 0), (9, 0), (10, 0)],
   2000, 40⟩

/-- Stations of the two-stop witness run. -/
def twoStopStations : List Station := [⟨1, 3, 0, "NV", some 3⟩, ⟨2, 6, 0, "UT", some 3⟩]

/-- Annotated stations used by the C7 witness. -/
def tierStations : List RStation :=
  [⟨1, "NV", some 3, 50, 0⟩, ⟨2, "NV", some (5/2), 60, 0⟩]

/-! ### Rounding lemmas -/

theorem jsRound_pos_iff (x : ℚ) : 0 < jsRound x ↔ 1/2 ≤ x := by
  unfold jsRound
  rw [Int.lt_iff_add_one_le, zero_add, Int.le_floor]
  push_cast
  constructor <;> intro h <;> linarith

theorem toFixed1_nonneg {x : ℚ} (h : 0 ≤ x) : 0 ≤ toFixed1 x := by
  unfold toFixed1 jsRound
  have h0 : (0 : ℤ) ≤ ⌊10 * x + 1/2⌋ := by
    rw [Int.le_floor]; push_cast; linarith
  have h1 : (0 : ℚ) ≤ (⌊10 * x + 1/2⌋ : ℚ) := by exact_mod_cast h0
  linarith

theorem toFixed1_ge_int {n : ℤ} {x : ℚ} (h : (n : ℚ) ≤ x) : (n : ℚ) ≤ toFixed1 x := by
  unfold toFixed1 jsRound
  have h0 : (10 * n : ℤ) ≤ ⌊10 * x + 1/2⌋ := by
    rw [Int.le_floor]; push_cast; linarith
  have h1 : ((10 * n : ℤ) : ℚ) ≤ (⌊10 * x + 1/2⌋ : ℚ) := by exact_mod_cast h0
  push_cast at h1
  linarith

/-! ### Sorting lemmas -/

theorem head?_insertionSort_mem {α : Type} (r : α → α → Prop) [DecidableRel r]
    {l : List α} {x : α} (h : (List.insertionSort r l).head? = some x) : x ∈ l := by
  have hx : x ∈ List.insertionSort r l := by
    cases hs : List.insertionSort r l with
    | nil => rw [hs] at h; simp at h
    | cons a t =>
      rw [hs] at h
      simp only [List.head?_cons, Option.some.injEq] at h
      rw [← h]
      exact List.mem_cons_self a t
  exact (List.mem_insertionSort r).mp hx

theorem chain'_orderedInsert {α : Type} (r : α → α → Prop) [DecidableRel r]
    (total : ∀ a b, r a b ∨ r b a) (x : α) :
    ∀ l, List.Chain' r l → List.Chain' r (List.orderedInsert r x l) := by
  intro l
  induction l with
  | nil => intro _; simp
  | cons y t ih =>
    intro hch
    rw [List.orderedInsert]
    split
    case isTrue h => exact List.chain'_cons.mpr ⟨h, hch⟩
    case isFalse h =>
      have hyx : r y x := (total x y).resolve_left h
      have hcht : List.Chain' r t := hch.tail
      cases t with
      | nil => simpa using hyx
      | cons z t2 =>
        rw [List.orderedInsert]
        split
        case isTrue hxz =>
          exact List.chain'_cons.mpr ⟨hyx, List.chain'_cons.mpr ⟨hxz, hch.tail⟩⟩
        case isFalse hxz =>
          have hyz : r y z := (List.chain'_cons.mp hch).1
          have hrec := ih hcht
          rw [List.orderedInsert, if_neg hxz] at hrec
          exact List.chain'_cons.mpr ⟨hyz, hrec⟩

theorem chain'_insertionSort {α : Type} (r : α → α → Prop) [DecidableRel r]
    (total : ∀ a b, r a b ∨ r b a) (l : List α) :
    List.Chain' r (List.insertionSort r l) := by
  induction l with
  | nil => simp
  | cons a t ih =>
    rw [List.insertionSort]
    exact chain'_orderedInsert r total a _ ih

/-! ### Station-selection extraction lemmas -/

theorem findAnyReachableStation_some {pos maxR : ℚ} {stations : List RStation}
    {used : Finset ℕ} {st : RStation}
    (h : findAnyReachableStation pos maxR stations used = some st) :
    st ∈ stations ∧ st.id ∉ used ∧ pos < st.distanceFromStart ∧
      st.distanceFromStart - pos ≤ maxR ∧ 0 < st.distanceFromStart - pos := by
  simp only [findAnyReachableStation] at h
  have hm := head?_insertionSort_mem _ h
  simp only [List.mem_filter, Bool.and_eq_true, decide_eq_true_eq] at hm
  tauto

theorem findClosestReachableStation_some {pos maxR : ℚ} {stations : List RStation}
    {used : Finset ℕ} {st : RStation}
    (h : findClosestReachableStation pos maxR stations used = some st) :
    st ∈ stations ∧ st.id ∉ used ∧ pos < st.distanceFromStart ∧
      st.distanceFromStart - pos ≤ maxR ∧ 0 < st.distanceFromStart - pos := by
  simp only [findClosestReachableStation] at h
  have hm := head?_insertionSort_mem _ h
  simp only [List.mem_filter, Bool.and_eq_true, decide_eq_true_eq] at hm
  tauto

theorem findBestStationInRange_some {minD maxD : ℚ} {stations : List RStation}
    {used : Finset ℕ} {st : RStation}
    (h : findBestStationInRange minD maxD stations used = some st) :
    st ∈ stations ∧ st.id ∉ used ∧ minD ≤ st.distanceFromStart ∧
      st.distanceFromStart ≤ maxD := by
  simp only [findBestStationInRange] at h
  split at h
  · exact absurd h (by simp)
  · have hm := head?_insertionSort_mem _ h
    have hr : st ∈ stations.filter fun s =>
        decide (s.id ∉ used) && decide (minD ≤ s.distanceFromStart) &&
          decide (s.distanceFromStart ≤ maxD) := by
      split at hm
      · exact List.mem_of_mem_filter hm
      · split at hm
        · exact List.mem_of_mem_filter hm
        · split at hm
          · exact List.mem_of_mem_filter hm
          · exact List.mem_of_mem_filter hm
    simp only [List.mem_filter, Bool.and_eq_true, decide_eq_true_eq] at hr
    tauto

/-! ### Border-crossing lemmas -/

theorem lastNonHighPrice_mem {hps : List String} {seen : List RStation} {st : RStation}
    (h : lastNonHighPrice hps seen = some st) : st ∈ seen := by
  unfold lastNonHighPrice at h
  have := List.mem_of_find?_eq_some h
  exact List.mem_reverse.mp this

theorem crossingsScan_last_mem {hps : List String} :
    ∀ (rest seen : List RStation) (prev : String) (c : Crossing) (st : RStation),
      c ∈ crossingsScan hps seen prev rest →
      c.lastStationBeforeBorder = some st → st ∈ seen ++ rest := by
  intro rest
  induction rest with
  | nil => intro seen prev c st hc; simp [crossingsScan] at hc
  | cons x rest ih =>
    intro seen prev c st hc hlast
    rw [crossingsScan] at hc
    split at hc
    · rcases List.mem_cons.mp hc with hc1 | hc2
      · subst hc1
        simp only at hlast
        have := lastNonHighPrice_mem hlast
        exact List.mem_append_left _ this
      · have := ih (seen ++ [x]) x.state c st hc2 hlast
        simpa [List.append_assoc] using this
    · have := ih (seen ++ [x]) x.state c st hc hlast
      simpa [List.append_assoc] using this

theorem findStateBorderCrossings_last_mem {l : List RStation} {hps : List String}
    {c : Crossing} {st : RStation} (hc : c ∈ findStateBorderCrossings l hps)
    (hlast : c.lastStationBeforeBorder = some st) : st ∈ l := by
  unfold findStateBorderCrossings at hc
  match l, hc with
  | first :: second :: rest, hc =>
    have := crossingsScan_last_mem (second :: rest) [first] first.state c st hc hlast
    simpa using this

/-! ### Ids inserted by one loop iteration -/

theorem mem_allIdsF_of_station {env : PlanEnv} {st : RStation} (h : st ∈ env.stations) :
    st.id ∈ allIdsF env := by
  unfold allIdsF
  rw [List.mem_toFinset]
  exact List.mem_append_left _ (List.mem_map_of_mem _ h)

theorem mem_allIdsF_of_crossing {env : PlanEnv} {c : Crossing} {st : RStation}
    (hc : c ∈ env.crossings) (h : c.lastStationBeforeBorder = some st) :
    st.id ∈ allIdsF env := by
  unfold allIdsF
  rw [List.mem_toFinset]
  refine List.mem_append_right _ (List.mem_map_of_mem _ ?_)
  exact List.mem_filterMap.mpr ⟨c, hc, h⟩

theorem card_sdiff_insert_lt {A u : Finset ℕ} {i : ℕ} (hiA : i ∈ A) (hiu : i ∉ u) :
    (A \ insert i u).card < (A \ u).card := by
  have h1 : A \ insert i u = (A \ u).erase i := by
    ext x
    simp only [Finset.mem_sdiff, Finset.mem_erase, Finset.mem_insert]
    tauto
  rw [h1]
  exact Finset.card_erase_lt_of_mem (Finset.mem_sdiff.mpr ⟨hiA, hiu⟩)

theorem planNearMiss_ne_next (env : PlanEnv) (s : LoopState) (ur : ℚ) (s1 : LoopState) :
    planNearMiss env s ur ≠ .next s1 := by
  intro h
  simp only [planNearMiss] at h
  split at h
  · split at h <;> split at h <;> exact StepOut.noConfusion h
  · exact StepOut.noConfusion h

theorem planStandard_next_insert {env : PlanEnv} {s : LoopState} {ur cr : ℚ}
    {s1 : LoopState} (h : planStandard env s ur cr = .next s1) :
    ∃ i, i ∈ allIdsF env ∧ i ∉ s.used ∧ s1.used = insert i s.used := by
  simp only [planStandard] at h
  split at h
  · split at h
    · rename_i es heq
      cases h
      obtain ⟨hmem, hnot, -, -, -⟩ := findAnyReachableStation_some heq
      exact ⟨es.id, mem_allIdsF_of_station hmem, hnot, rfl⟩
    · exact StepOut.noConfusion h
  · rename_i ns heq
    split at h
    · cases h
      obtain ⟨hmem, hnot, -, -⟩ := findBestStationInRange_some heq
      exact ⟨ns.id, mem_allIdsF_of_station hmem, hnot, rfl⟩
    · cases h
      obtain ⟨hmem, hnot, -, -⟩ := findBestStationInRange_some heq
      exact ⟨ns.id, mem_allIdsF_of_station hmem, hnot, rfl⟩

theorem planRest_next_insert {env : PlanEnv} {s : LoopState} {rd ur cr : ℚ}
    {s1 : LoopState} (h : planRest env s rd ur cr = .next s1) :
    ∃ i, i ∈ allIdsF env ∧ i ∉ s.used ∧ s1.used = insert i s.used := by
  simp only [planRest] at h
  split at h
  · exact (StepOut.noConfusion h)
  · split at h
    · exact (planNearMiss_ne_next env s ur s1 h).elim
    · exact planStandard_next_insert h

theorem planStep_next_insert {env : PlanEnv} {s : LoopState} {s1 : LoopState}
    (h : planStep env s = .next s1) :
    ∃ i, i ∈ allIdsF env ∧ i ∉ s.used ∧ s1.used = insert i s.used := by
  simp only [planStep] at h
  split at h
  · rename_i c heq
    split at h
    · rename_i lastS heq2
      split at h
      · split at h
        · cases h
          have hcmem : c ∈ env.crossings := List.mem_of_find?_eq_some heq
          have hpred := List.find?_some heq
          have hnot : lastS.id ∉ s.used := by
            unfold borderFindPred at hpred
            rw [heq2] at hpred
            simp only [Bool.and_eq_true, decide_eq_true_eq] at hpred
            exact hpred.2
          exact ⟨lastS.id, mem_allIdsF_of_crossing hcmem heq2, hnot, rfl⟩
        · exact planRest_next_insert h
      · exact planRest_next_insert h
    · exact planRest_next_insert h
  · exact planRest_next_insert h

theorem planStep_next_card {env : PlanEnv} {s s1 : LoopState}
    (h : planStep env s = .next s1) :
    (allIdsF env \ s1.used).card < (allIdsF env \ s.used).card := by
  obtain ⟨i, hiA, hiu, hins⟩ := planStep_next_insert h
  rw [hins]
  exact card_sdiff_insert_lt hiA hiu

/-! ### Gas sufficiency: the loop terminates within the id-count bound -/

theorem fuelLoopAux_gas_irrelevant (env : PlanEnv) :
    ∀ gas gas' s, (allIdsF env \ s.used).card < gas →
      (allIdsF env \ s.used).card < gas' →
      fuelLoopAux env gas s = fuelLoopAux env gas' s := by
  intro gas
  induction gas with
  | zero => intro gas' s h; omega
  | succ g ih =>
    intro gas' s h h'
    cases gas' with
    | zero => omega
    | succ g' =>
      simp only [fuelLoopAux]
      split
      · cases hstep : planStep env s with
        | done s1 => rfl
        | next s1 =>
          have hc := planStep_next_card hstep
          exact ih g' s1 (by omega) (by omega)
      · rfl

theorem fuelLoopRun_eq_of_lt {env : PlanEnv} {s : LoopState} {gas : ℕ}
    (h : (allIdsF env \ s.used).card < gas) :
    fuelLoopAux env gas s = fuelLoopRun env s :=
  fuelLoopAux_gas_irrelevant env gas ((allIdsF env \ s.used).card + 1) s h
    (Nat.lt_succ_self _)

theorem fuelLoopRun_unfold (env : PlanEnv) (s : LoopState) :
    fuelLoopRun env s =
      if s.pos < env.D then
        match planStep env s with
        | .done s1 => s1
        | .next s1 => fuelLoopRun env s1
      else s := by
  rw [fuelLoopRun]
  simp only [fuelLoopAux]
  split
  · cases hstep : planStep env s with
    | done s1 => rfl
    | next s1 =>
      have hc := planStep_next_card hstep
      exact fuelLoopRun_eq_of_lt (by omega)
  · rfl

/-! ### The stop list only grows -/

theorem planNearMiss_stops_extend {env : PlanEnv} {s : LoopState} {ur : ℚ}
    {out : StepOut} (h : planNearMiss env s ur = out) :
    ∃ t, out.state.stops = s.stops ++ t := by
  simp only [planNearMiss] at h
  repeat' split at h
  all_goals cases h
  all_goals first
    | exact ⟨[], (List.append_nil _).symm⟩
    | exact ⟨_, rfl⟩

theorem planStandard_stops_extend {env : PlanEnv} {s : LoopState} {ur cr : ℚ}
    {out : StepOut} (h : planStandard env s ur cr = out) :
    ∃ t, out.state.stops = s.stops ++ t := by
  simp only [planStandard] at h
  repeat' split at h
  all_goals cases h
  all_goals first
    | exact ⟨[], (List.append_nil _).symm⟩
    | exact ⟨_, rfl⟩

theorem planRest_stops_extend {env : PlanEnv} {s : LoopState} {rd ur cr : ℚ}
    {out : StepOut} (h : planRest env s rd ur cr = out) :
    ∃ t, out.state.stops = s.stops ++ t := by
  simp only [planRest] at h
  split at h
  · cases h; exact ⟨[], (List.append_nil _).symm⟩
  · split at h
    · exact planNearMiss_stops_extend h
    · exact planStandard_stops_extend h

theorem planStep_out_stops_extend {env : PlanEnv} {s : LoopState} {out : StepOut}
    (h : planStep env s = out) : ∃ t, out.state.stops = s.stops ++ t := by
  simp only [planStep] at h
  split at h
  · split at h
    · split at h
      · split at h
        · cases h; exact ⟨_, rfl⟩
        · exact planRest_stops_extend h
      · exact planRest_stops_extend h
    · exact planRest_stops_extend h
  · exact planRest_stops_extend h

theorem planStep_stops_extend (env : PlanEnv) (s : LoopState) :
    ∃ t, ((planStep env s).state).stops = s.stops ++ t :=
  planStep_out_stops_extend rfl

theorem fuelLoopAux_stops_extend (env : PlanEnv) :
    ∀ (gas : ℕ) (s : LoopState), ∃ t, (fuelLoopAux env gas s).stops = s.stops ++ t := by
  intro gas
  induction gas with
  | zero => intro s; exact ⟨[], (List.append_nil _).symm⟩
  | succ g ih =>
    intro s
    simp only [fuelLoopAux]
    split
    · cases hstep : planStep env s with
      | done s1 =>
        have h1 := planStep_stops_extend env s
        rw [hstep] at h1
        exact h1
      | next s1 =>
        have h1 := planStep_stops_extend env s
        rw [hstep] at h1
        obtain ⟨t1, h1⟩ := h1
        obtain ⟨t2, h2⟩ := ih s1
        exact ⟨t1 ++ t2, by
          rw [h2]
          simp only [StepOut.state] at h1
          rw [h1, List.append_assoc]⟩
    · exact ⟨[], (List.append_nil _).symm⟩

theorem fuelLoopRun_stops_extend (env : PlanEnv) (s : LoopState) :
    ∃ t, (fuelLoopRun env s).stops = s.stops ++ t :=
  fuelLoopAux_stops_extend env _ s

/-! ### Arithmetic facts about the search windows -/

theorem arrival_nonneg_of_window {fuel d mpg : ℚ} (hmpg : 0 < mpg) (hfuel : 0 ≤ fuel)
    (hd0 : 0 ≤ d) (hdur : d ≤ max 0 (fuel - minArrivalGallons) * mpg) :
    0 ≤ fuel - d / mpg := by
  rcases le_or_lt fuel minArrivalGallons with hf | hf
  · have hm : max 0 (fuel - minArrivalGallons) = 0 := max_eq_left (by linarith)
    rw [hm, zero_mul] at hdur
    have hd : d = 0 := le_antisymm hdur hd0
    rw [hd, zero_div]
    linarith
  · have hm : max 0 (fuel - minArrivalGallons) = fuel - minArrivalGallons :=
      max_eq_right (by linarith)
    rw [hm] at hdur
    have hq : d / mpg ≤ fuel - minArrivalGallons := (div_le_iff₀ hmpg).mpr hdur
    have h30 : (0 : ℚ) ≤ minArrivalGallons := by norm_num [minArrivalGallons]
    linarith

theorem arrival_reserve_of_window {fuel d mpg : ℚ} (hmpg : 0 < mpg)
    (hd0 : 0 < d) (hdur : d ≤ max 0 (fuel - minArrivalGallons) * mpg) :
    minArrivalGallons ≤ fuel - d / mpg := by
  rcases le_or_lt fuel minArrivalGallons with hf | hf
  · have hm : max 0 (fuel - minArrivalGallons) = 0 := max_eq_left (by linarith)
    rw [hm, zero_mul] at hdur
    linarith
  · have hm : max 0 (fuel - minArrivalGallons) = fuel - minArrivalGallons :=
      max_eq_right (by linarith)
    rw [hm] at hdur
    have hq : d / mpg ≤ fuel - minArrivalGallons := (div_le_iff₀ hmpg).mpr hdur
    linarith

theorem nearMiss_advance {tank fillTo fuel d mpg : ℚ} (hmpg : 0 < mpg)
    (hfuel : fuel = tank) (hfill : fillTo ≤ tank)
    (hg : 0 < max 0 (jsRound (fillTo - (fuel - d / mpg)))) : 0 < d := by
  have hg' : 0 < jsRound (fillTo - (fuel - d / mpg)) :=
    (lt_max_iff.mp hg).resolve_left (lt_irrefl 0)
  have h12 : 1/2 ≤ fillTo - (fuel - d / mpg) := (jsRound_pos_iff _).mp hg'
  have hdm : 1/2 ≤ d / mpg := by rw [hfuel] at h12; linarith
  have hdm0 : 0 < d / mpg := lt_of_lt_of_le (by norm_num) hdm
  have := mul_pos hdm0 hmpg
  rwa [div_mul_cancel₀ _ (ne_of_gt hmpg)] at this

/-! ### Building the invariant after a committed stop -/

theorem createStop_station (n : ℕ) (st : RStation) (g : ℤ) (fill fa : ℚ) :
    (createStopFromStation n st g fill fa).station = st := rfl

theorem createStop_number (n : ℕ) (st : RStation) (g : ℤ) (fill fa : ℚ) :
    (createStopFromStation n st g fill fa).number = n := rfl

theorem createStop_fuelRemaining (n : ℕ) (st : RStation) (g : ℤ) (fill fa : ℚ) :
    (createStopFromStation n st g fill fa).fuelRemaining = toFixed1 fa := rfl

theorem range'_one_concat (n : ℕ) : List.range' 1 (n + 1) = List.range' 1 n ++ [1 + n] := by
  have h := List.range'_append 1 n 1 1
  simp only [one_mul, List.range'_one] at h
  rw [Nat.add_comm n 1]
  exact h.symm

theorem toFixed1_ge_min {x : ℚ} (h : minArrivalGallons ≤ x) :
    minArrivalGallons ≤ toFixed1 x := by
  have h' : ((30 : ℤ) : ℚ) ≤ x := by
    norm_num [minArrivalGallons] at h
    push_cast
    linarith
  have h2 := toFixed1_ge_int h'
  norm_num [minArrivalGallons]
  push_cast at h2
  linarith

theorem planInvOut_append {env : PlanEnv} {s s2 : LoopState} {st : RStation}
    {g : ℤ} {fill fa : ℚ} (hinv : PlanInv env s) (hid : st.id ∉ s.used)
    (hlt : ∀ p ∈ s.stops.getLast?, p.station.distanceFromStart < st.distanceFromStart)
    (hfa : 0 ≤ fa)
    (h2 : s2.stops = s.stops ++ [createStopFromStation (s.stops.length + 1) st g fill fa])
    (hstd2 : ∀ i ∈ s2.standardIds, i = st.id ∨ i ∈ s.standardIds)
    (hres : st.id ∈ s2.standardIds → minArrivalGallons ≤ fa) :
    PlanInvOut s2 := by
  have hstid : st.id ∉ s.stops.map fun p => p.station.id := fun hmem =>
    hid (hinv.idsUsed _ hmem)
  refine ⟨?_, ?_, ?_, ?_, ?_⟩
  · rw [h2, List.map_append]
    refine List.Nodup.append hinv.nodup (by simp) ?_
    intro a ha hb
    simp only [List.map_cons, List.map_nil, List.mem_singleton, createStop_station] at hb
    rw [hb] at ha
    exact hstid ha
  · rw [h2, List.map_append, List.length_append]
    simp only [List.map_cons, List.map_nil, List.length_cons, List.length_nil,
      createStop_number]
    rw [hinv.numbered, range'_one_concat, Nat.add_comm 1 s.stops.length]
  · rw [h2]
    refine List.Chain'.append hinv.chain (List.chain'_singleton _) ?_
    intro x hx y hy
    simp only [List.head?_cons, Option.mem_def, Option.some.injEq] at hy
    rw [← hy, createStop_station]
    exact hlt x hx
  · intro p hp
    rw [h2] at hp
    rcases List.mem_append.mp hp with hp | hp
    · exact hinv.arrivalNonneg p hp
    · simp only [List.mem_singleton] at hp
      rw [hp, createStop_fuelRemaining]
      exact toFixed1_nonneg hfa
  · intro p hp hpid
    rw [h2] at hp
    rcases List.mem_append.mp hp with hp | hp
    · rcases hstd2 _ hpid with heq | hold
      · exfalso
        have : p.station.id ∈ s.stops.map fun q => q.station.id :=
          List.mem_map_of_mem _ hp
        rw [heq] at this
        exact hstid this
      · exact hinv.stdReserve p hp hold
    · simp only [List.mem_singleton] at hp
      rw [hp, createStop_station] at hpid
      rw [hp, createStop_fuelRemaining]
      exact toFixed1_ge_min (hres hpid)

theorem planInv_append {env : PlanEnv} {s s2 : LoopState} {st : RStation}
    {g : ℤ} {fill fa : ℚ} (hinv : PlanInv env s) (htank : 0 ≤ env.tank)
    (hid : st.id ∉ s.used) (hdgt : s.pos < st.distanceFromStart) (hfa : 0 ≤ fa)
    (h2 : s2.stops = s.stops ++ [createStopFromStation (s.stops.length + 1) st g fill fa])
    (hstd2 : ∀ i ∈ s2.standardIds, i = st.id ∨ i ∈ s.standardIds)
    (hres : st.id ∈ s2.standardIds → minArrivalGallons ≤ fa)
    (h2used : s2.used = insert st.id s.used)
    (h2pos : s2.pos = st.distanceFromStart) (h2fuel : s2.fuel = env.tank) :
    PlanInv env s2 := by
  have hlt : ∀ p ∈ s.stops.getLast?, p.station.distanceFromStart < st.distanceFromStart :=
    fun p hp => lt_of_le_of_lt (hinv.lastLe p hp) hdgt
  refine ⟨planInvOut_append hinv hid hlt hfa h2 hstd2 hres, ?_, ?_, ?_, ?_, ?_⟩
  · intro i hi
    rw [h2, List.map_append] at hi
    rw [h2used]
    rcases List.mem_append.mp hi with hi | hi
    · exact Finset.mem_insert_of_mem (hinv.idsUsed _ hi)
    · simp only [List.map_cons, List.map_nil, List.mem_singleton, createStop_station] at hi
      rw [hi]
      exact Finset.mem_insert_self _ _
  · intro i hi
    rw [h2used]
    rcases hstd2 _ hi with heq | hold
    · rw [heq]; exact Finset.mem_insert_self _ _
    · exact Finset.mem_insert_of_mem (hinv.stdUsed _ hold)
  · intro p hp
    rw [h2, List.getLast?_concat] at hp
    simp only [Option.mem_def, Option.some.injEq] at hp
    rw [← hp, createStop_station, h2pos]
  · intro _
    exact h2fuel
  · rw [h2fuel]
    exact htank

theorem planInv_insert_used {env : PlanEnv} {s : LoopState} (hinv : PlanInv env s)
    (i : ℕ) : PlanInv env { s with used := insert i s.used } := by
  refine ⟨⟨hinv.nodup, hinv.numbered, hinv.chain, hinv.arrivalNonneg, hinv.stdReserve⟩,
    ?_, ?_, hinv.lastLe, hinv.fuelFull, hinv.fuelNonneg⟩
  · intro j hj
    exact Finset.mem_insert_of_mem (hinv.idsUsed _ hj)
  · intro j hj
    exact Finset.mem_insert_of_mem (hinv.stdUsed _ hj)

/-! ### One loop iteration preserves the invariant -/

theorem StepInv_next {env : PlanEnv} {s1 : LoopState} (hi : PlanInv env s1) :
    StepInv env (.next s1) :=
  ⟨hi.toPlanInvOut, fun _ h1 => by cases h1; exact hi⟩

theorem StepInv_done {env : PlanEnv} {s1 : LoopState} (hi : PlanInvOut s1) :
    StepInv env (.done s1) :=
  ⟨hi, fun _ h1 => StepOut.noConfusion h1⟩

theorem planNearMiss_inv {env : PlanEnv} {s : LoopState} {ur : ℚ} {out : StepOut}
    (hmpg : 0 < env.mpg) (hinv : PlanInv env s)
    (hur : ur = max 0 (s.fuel - minArrivalGallons) * env.mpg)
    (h : planNearMiss env s ur = out) : StepInv env out := by
  have hnonext : ∀ s1, out = .next s1 → PlanInv env s1 := fun s1 h1 =>
    absurd (h.trans h1) (planNearMiss_ne_next env s ur s1)
  refine ⟨?_, hnonext⟩
  simp only [planNearMiss] at h
  split at h
  · rename_i st heqfb
    obtain ⟨hmem, hnot, hge, hle⟩ := findBestStationInRange_some heqfb
    have hdur : st.distanceFromStart - s.pos ≤ max 0 (s.fuel - minArrivalGallons) * env.mpg := by
      have h1 := le_trans hle (min_le_left _ _)
      rw [hur] at h1
      linarith
    have hd0 : (0 : ℚ) ≤ st.distanceFromStart - s.pos := by linarith
    have hfa : 0 ≤ s.fuel - (st.distanceFromStart - s.pos) / env.mpg :=
      arrival_nonneg_of_window hmpg hinv.fuelNonneg hd0 hdur
    have hres0 : st.id ∈ s.standardIds →
        minArrivalGallons ≤ s.fuel - (st.distanceFromStart - s.pos) / env.mpg :=
      fun hm => absurd (hinv.stdUsed _ hm) hnot
    split at h
    · rename_i hwill
      split at h
      · rename_i hg
        cases h
        have hlt : ∀ p ∈ s.stops.getLast?,
            p.station.distanceFromStart < st.distanceFromStart := by
          intro p hp
          have hne : s.stops ≠ [] := by
            intro hnil; rw [hnil] at hp; simp at hp
          have hfuel := hinv.fuelFull hne
          have hdpos : 0 < st.distanceFromStart - s.pos :=
            nearMiss_advance hmpg hfuel (le_refl env.tank) hg
          have := hinv.lastLe p hp
          linarith
        exact planInvOut_append hinv hnot hlt hfa rfl (fun i hi => Or.inr hi) hres0
      · cases h
        exact ⟨hinv.nodup, hinv.numbered, hinv.chain, hinv.arrivalNonneg, hinv.stdReserve⟩
    · rename_i hwill
      split at h
      · rename_i hg
        cases h
        have hlt : ∀ p ∈ s.stops.getLast?,
            p.station.distanceFromStart < st.distanceFromStart := by
          intro p hp
          have hne : s.stops ≠ [] := by
            intro hnil; rw [hnil] at hp; simp at hp
          have hfuel := hinv.fuelFull hne
          have hdpos : 0 < st.distanceFromStart - s.pos :=
            nearMiss_advance hmpg hfuel (min_le_left _ _) hg
          have := hinv.lastLe p hp
          linarith
        exact planInvOut_append hinv hnot hlt hfa rfl (fun i hi => Or.inr hi) hres0
      · cases h
        exact ⟨hinv.nodup, hinv.numbered, hinv.chain, hinv.arrivalNonneg, hinv.stdReserve⟩
  · cases h
    exact ⟨hinv.nodup, hinv.numbered, hinv.chain, hinv.arrivalNonneg, hinv.stdReserve⟩

theorem planStandard_inv {env : PlanEnv} {s : LoopState} {ur cr : ℚ} {out : StepOut}
    (_hmpg : 0 < env.mpg) (htank : 0 ≤ env.tank) (hinv : PlanInv env s)
    (h : planStandard env s ur cr = out) : StepInv env out := by
  simp only [planStandard] at h
  split at h
  · split at h
    · rename_i es heqany
      cases h
      obtain ⟨hmem, hnot, hlt1, hle1, hpos1⟩ := findAnyReachableStation_some heqany
      exact StepInv_next (planInv_append hinv htank hnot (by linarith)
        (le_max_left 0 _) rfl (fun i hi => Or.inr hi)
        (fun hm => absurd (hinv.stdUsed _ hm) hnot) rfl rfl rfl)
    · cases h
      exact ⟨⟨hinv.nodup, hinv.numbered, hinv.chain, hinv.arrivalNonneg, hinv.stdReserve⟩,
        fun s1 h1 => StepOut.noConfusion h1⟩
  · rename_i ns heqfb
    obtain ⟨hmem, hnot, hge, hle⟩ := findBestStationInRange_some heqfb
    split at h
    · cases h
      exact StepInv_next (planInv_insert_used hinv ns.id)
    · rename_i hfat
      cases h
      have hfa30 : minArrivalGallons ≤
          s.fuel - (ns.distanceFromStart - s.pos) / env.mpg := not_lt.mp hfat
      have hfa0 : (0 : ℚ) ≤ s.fuel - (ns.distanceFromStart - s.pos) / env.mpg :=
        le_trans (by norm_num [minArrivalGallons]) hfa30
      have hdgt : s.pos < ns.distanceFromStart := by linarith
      exact StepInv_next (planInv_append hinv htank hnot hdgt hfa0 rfl
        (fun i hi => List.mem_cons.mp hi) (fun _ => hfa30) rfl rfl rfl)

theorem planRest_inv {env : PlanEnv} {s : LoopState} {rd ur cr : ℚ} {out : StepOut}
    (hmpg : 0 < env.mpg) (htank : 0 ≤ env.tank) (hinv : PlanInv env s)
    (hur : ur = max 0 (s.fuel - minArrivalGallons) * env.mpg)
    (h : planRest env s rd ur cr = out) : StepInv env out := by
  simp only [planRest] at h
  split at h
  · cases h
    exact ⟨⟨hinv.nodup, hinv.numbered, hinv.chain, hinv.arrivalNonneg, hinv.stdReserve⟩,
      fun s1 h1 => StepOut.noConfusion h1⟩
  · split at h
    · exact planNearMiss_inv hmpg hinv hur h
    · exact planStandard_inv hmpg htank hinv h

theorem planStep_inv {env : PlanEnv} {s : LoopState} {out : StepOut}
    (hmpg : 0 < env.mpg) (htank : 0 ≤ env.tank) (hinv : PlanInv env s)
    (h : planStep env s = out) : StepInv env out := by
  simp only [planStep] at h
  split at h
  · rename_i c heqfind
    split at h
    · rename_i lastS heqlast
      split at h
      · rename_i hcond
        split at h
        · cases h
          have hpred := List.find?_some heqfind
          have hnot : lastS.id ∉ s.used := by
            unfold borderFindPred at hpred
            rw [heqlast] at hpred
            simp only [Bool.and_eq_true, decide_eq_true_eq] at hpred
            exact hpred.2
          have hdgt : s.pos < lastS.distanceFromStart := by linarith [hcond.1]
          have hfa30 : minArrivalGallons ≤
              s.fuel - (lastS.distanceFromStart - s.pos) / env.mpg :=
            arrival_reserve_of_window hmpg hcond.1 hcond.2
          have hfa0 : (0 : ℚ) ≤ s.fuel - (lastS.distanceFromStart - s.pos) / env.mpg :=
            le_trans (by norm_num [minArrivalGallons]) hfa30
          exact StepInv_next (planInv_append hinv htank hnot hdgt hfa0 rfl
            (fun i hi => Or.inr hi) (fun hm => absurd (hinv.stdUsed _ hm) hnot)
            rfl rfl rfl)
        · exact planRest_inv hmpg htank hinv rfl h
      · exact planRest_inv hmpg htank hinv rfl h
    · exact planRest_inv hmpg htank hinv rfl h
  · exact planRest_inv hmpg htank hinv rfl h

theorem fuelLoopAux_invOut {env : PlanEnv} (hmpg : 0 < env.mpg) (htank : 0 ≤ env.tank) :
    ∀ (gas : ℕ) (s : LoopState), PlanInv env s → PlanInvOut (fuelLoopAux env gas s) := by
  intro gas
  induction gas with
  | zero => intro s hinv; exact hinv.toPlanInvOut
  | succ g ih =>
    intro s hinv
    simp only [fuelLoopAux]
    split
    · cases hstep : planStep env s with
      | done s1 => exact (planStep_inv hmpg htank hinv hstep).1
      | next s1 => exact ih s1 ((planStep_inv hmpg htank hinv hstep).2 s1 rfl)
    · exact hinv.toPlanInvOut

theorem planInv_init (env : PlanEnv) {f : ℚ} (hf : 0 ≤ f) :
    PlanInv env (initState f) := by
  refine ⟨⟨?_, ?_, ?_, ?_, ?_⟩, ?_, ?_, ?_, ?_, ?_⟩
  · simp [initState]
  · simp [initState]
  · simp [initState]
  · simp [initState]
  · simp [initState]
  · simp [initState]
  · simp [initState]
  · simp [initState]
  · intro h; simp [initState] at h
  · simpa [initState] using hf

theorem fuelLoopRun_invOut {env : PlanEnv} (hmpg : 0 < env.mpg) (htank : 0 ≤ env.tank)
    {f : ℚ} (hf : 0 ≤ f) : PlanInvOut (fuelLoopRun env (initState f)) :=
  fuelLoopAux_invOut hmpg htank _ _ (planInv_init env hf)

/-! ### The emergency branch is never entered -/

theorem planNearMiss_emer {env : PlanEnv} {s : LoopState} {ur : ℚ} {out : StepOut}
    (h : planNearMiss env s ur = out) : out.state.emer = s.emer := by
  simp only [planNearMiss] at h
  repeat' split at h
  all_goals cases h
  all_goals rfl

theorem planStandard_emer {env : PlanEnv} {s : LoopState} {ur cr : ℚ} {out : StepOut}
    (h : planStandard env s ur cr = out) : out.state.emer = s.emer := by
  simp only [planStandard] at h
  repeat' split at h
  all_goals cases h
  all_goals rfl

theorem planRest_emer {env : PlanEnv} {s : LoopState} {rd ur cr : ℚ} {out : StepOut}
    (h : planRest env s rd ur cr = out) : out.state.emer = s.emer := by
  simp only [planRest] at h
  split at h
  · cases h; rfl
  · split at h
    · exact planNearMiss_emer h
    · exact planStandard_emer h

theorem planStep_emer {env : PlanEnv} {s : LoopState} {out : StepOut}
    (h : planStep env s = out) : out.state.emer = s.emer := by
  simp only [planStep] at h
  split at h
  · split at h
    · split at h
      · split at h
        · cases h; rfl
        · exact planRest_emer h
      · exact planRest_emer h
    · exact planRest_emer h
  · exact planRest_emer h

theorem fuelLoopAux_emer (env : PlanEnv) :
    ∀ (gas : ℕ) (s : LoopState), (fuelLoopAux env gas s).emer = s.emer := by
  intro gas
  induction gas with
  | zero => intro s; rfl
  | succ g ih =>
    intro s
    simp only [fuelLoopAux]
    split
    · cases hstep : planStep env s with
      | done s1 => exact planStep_emer hstep
      | next s1 =>
        have h1 : s1.emer = s.emer := planStep_emer hstep
        rw [ih s1, h1]
    · rfl

/-! ## Claims -/

/-- Claim C10 (confirmed): the closest-reachable fallback is dead code.  The
`emer` ghost counter is incremented exactly when the branch at source line
1887 (`if (fuelAtStation < CONFIG.minArrivalGallons)`, guarding the only call
to `findClosestReachableStation`) is entered; across every run of the
planning loop, from any state and with any gas, the counter never changes —
the identical guard at line 1882 always fires first and ends the iteration
with `continue` — and in particular a full planning run ends with zero
entries. -/
theorem c10_dead_emergency_branch :
    (∀ (env : PlanEnv) (gas : ℕ) (s : LoopState),
      (fuelLoopAux env gas s).emer = s.emer) ∧
    (∀ (geoDist : ℚ × ℚ → ℚ × ℚ → ℚ) (ds : List Station) (rt : RouteData)
      (f t m : ℚ), (planRunOf geoDist ds rt f t m).emer = 0) :=
  ⟨fun env gas s => fuelLoopAux_emer env gas s,
   fun _g _ds _rt f _t _m => fuelLoopAux_emer _ _ (initState f)⟩

/-- Claim C3 (confirmed): no duplicate stops.  For every planning run with
caller-validated vehicle parameters (positive fuel economy, non-negative tank
size and starting fuel, as required by the specification's data model), the
station ids of the output stop list are pairwise distinct; moreover each
selection variant never returns a station whose id is in the exclusion set. -/
theorem c3_no_duplicate_stops :
    (∀ (geoDist : ℚ × ℚ → ℚ × ℚ → ℚ) (ds : List Station) (rt : RouteData)
      (f t m : ℚ), 0 < m → 0 ≤ t → 0 ≤ f →
      ((calculateFuelStops geoDist ds rt f t m).stops.map
        fun p => p.station.id).Nodup) ∧
    (∀ (a b : ℚ) (stations : List RStation) (used : Finset ℕ) (st : RStation),
      findBestStationInRange a b stations used = some st → st.id ∉ used) ∧
    (∀ (pos r : ℚ) (stations : List RStation) (used : Finset ℕ) (st : RStation),
      findAnyReachableStation pos r stations used = some st → st.id ∉ used) ∧
    (∀ (pos r : ℚ) (stations : List RStation) (used : Finset ℕ) (st : RStation),
      findClosestReachableStation pos r stations used = some st → st.id ∉ used) := by
  refine ⟨?_, ?_, ?_, ?_⟩
  · intro geoDist ds rt f t m hm ht hf
    exact (@fuelLoopRun_invOut (planEnvOf geoDist ds rt t m) hm ht _ hf).nodup
  · intro a b stations used st h
    exact (findBestStationInRange_some h).2.1
  · intro pos r stations used st h
    exact (findAnyReachableStation_some h).2.1
  · intro pos r stations used st h
    exact (findClosestReachableStation_some h).2.1

/-- Witness for C3: a concrete two-stop run with distinct station ids, and a
concrete selection call excluding the used set. -/
theorem c3_witness :
    ((calculateFuelStops taxiDist twoStopStations twoStopRoute 100 100 10).stops.map
      fun p => p.station.id).Nodup ∧ (2 : ℕ) ∉ (∅ : Finset ℕ) :=
  ⟨(c3_no_duplicate_stops.1 taxiDist twoStopStations twoStopRoute 100 100 10
      (by norm_num) (by norm_num) (by norm_num)),
   c3_no_duplicate_stops.2.1 0 100 tierStations ∅ ⟨2, "NV", some (5/2), 60, 0⟩
     (by with_unfolding_all rfl)⟩

/-- Claim C9 (confirmed): monotonic progress.  For every planning run with
caller-validated vehicle parameters, the stop numbers of the output are
exactly 1, 2, 3, … (contiguous, strictly increasing by 1) and the
`distanceFromStart` of the committed stations is strictly increasing along
the list — including when the final stop is committed by the near-miss path,
whose search window starts at the current position: committing there
requires a positive rounded fill amount, which forces a strictly positive
distance from the previous stop. -/
theorem c9_monotonic_progress :
    ∀ (geoDist : ℚ × ℚ → ℚ × ℚ → ℚ) (ds : List Station) (rt : RouteData)
      (f t m : ℚ), 0 < m → 0 ≤ t → 0 ≤ f →
      (calculateFuelStops geoDist ds rt f t m).stops.map (fun p => p.number) =
        List.range' 1 (calculateFuelStops geoDist ds rt f t m).stops.length ∧
      List.Chain' (fun a b =>
          a.station.distanceFromStart < b.station.distanceFromStart)
        (calculateFuelStops geoDist ds rt f t m).stops := by
  intro geoDist ds rt f t m hm ht hf
  have h := @fuelLoopRun_invOut (planEnvOf geoDist ds rt t m) hm ht _ hf
  exact ⟨h.numbered, h.chain⟩

/-- Witness for C9: the two-stop run has numbers `[1, 2]` and strictly
increasing positions (600 then 1200 miles). -/
theorem c9_witness :
    (calculateFuelStops taxiDist twoStopStations twoStopRoute 100 100 10).stops.map
        (fun p => p.number) =
      List.range' 1 (calculateFuelStops taxiDist twoStopStations
        twoStopRoute 100 100 10).stops.length ∧
    List.Chain' (fun a b =>
        a.station.distanceFromStart < b.station.distanceFromStart)
      (calculateFuelStops taxiDist twoStopStations twoStopRoute 100 100 10).stops :=
  c9_monotonic_progress taxiDist twoStopStations twoStopRoute 100 100 10
    (by norm_num) (by norm_num) (by norm_num)

/-- Claim C2 (corrected): arrival-reserve invariant.  What holds on the code:
every stop in the output — with no exception, including the near-miss path —
has `fuelRemaining ≥ 0`, and every stop committed by the narrow-window
standard path (recorded in the `standardIds` ghost) arrives with at least the
30-gallon reserve, the alternative being the discard-and-retry path.  The
claim's further assertion that the escalated any-reachable search also
enforces the 30-gallon reserve is false: that path commits with any arrival
fuel, clamped at 0 (see `c2_counterexample`). -/
theorem c2_arrival_reserve :
    ∀ (geoDist : ℚ × ℚ → ℚ × ℚ → ℚ) (ds : List Station) (rt : RouteData)
      (f t m : ℚ), 0 < m → 0 ≤ t → 0 ≤ f →
      (∀ p ∈ (calculateFuelStops geoDist ds rt f t m).stops, 0 ≤ p.fuelRemaining) ∧
      (∀ p ∈ (calculateFuelStops geoDist ds rt f t m).stops,
        p.station.id ∈ (planRunOf geoDist ds rt f t m).standardIds →
          minArrivalGallons ≤ p.fuelRemaining) := by
  intro geoDist ds rt f t m hm ht hf
  have h := @fuelLoopRun_invOut (planEnvOf geoDist ds rt t m) hm ht _ hf
  exact ⟨h.arrivalNonneg, h.stdReserve⟩

/-- Witness for C2: in the two-stop run both stops are standard commits and
arrive with 40 gallons. -/
theorem c2_witness :
    (∀ p ∈ (calculateFuelStops taxiDist twoStopStations twoStopRoute 100 100 10).stops,
      0 ≤ p.fuelRemaining) ∧
    (∀ p ∈ (calculateFuelStops taxiDist twoStopStations twoStopRoute 100 100 10).stops,
      p.station.id ∈ (planRunOf taxiDist twoStopStations twoStopRoute 100 100 10).standardIds →
        minArrivalGallons ≤ p.fuelRemaining) :=
  c2_arrival_reserve taxiDist twoStopStations twoStopRoute 100 100 10
    (by norm_num) (by norm_num) (by norm_num)

/-- Counterexample for C2 as stated: a 200-mile route with a single station
at mile 50 and 10 starting gallons.  The narrow window finds nothing, the
escalated any-reachable search commits the station (ghost `expandedIds`
records it), and the resulting stop has `fuelRemaining = 5 < 30` — the
escalated path does not enforce the 30-gallon arrival reserve and does not
discard the station. -/
theorem c2_counterexample :
    (planRunOf taxiDist expStations expRoute 10 100 10).expandedIds = [7] ∧
    (planRunOf taxiDist expStations expRoute 10 100 10).stops.map
      (fun p => (p.station.id, p.fuelRemaining)) = [(7, 5)] ∧
    ¬ minArrivalGallons ≤ (5 : ℚ) := by
  refine ⟨by with_unfolding_all rfl, by with_unfolding_all rfl, ?_⟩
  norm_num [minArrivalGallons]

/-- Claim C4 (corrected): failure signaling.  What holds on the code: the
function returns only `{ stops, finalFuel }` with `finalFuel` clamped up to
the 75%-of-tank target, so the returned value never carries an
incompleteness flag; incompleteness is only logged to the console.  The
claim's assertion that a failure halt is distinguishable in the returned
value from a successful zero-stop determination is false (see
`c4_counterexample`). -/
theorem c4_failure_signaling :
    ∀ (geoDist : ℚ × ℚ → ℚ × ℚ → ℚ) (ds : List Station) (rt : RouteData)
      (f t m : ℚ),
      t * destinationFuelTarget ≤ (calculateFuelStops geoDist ds rt f t m).finalFuel ∧
      (calculateFuelStops geoDist ds rt f t m).stops =
        (planRunOf geoDist ds rt f t m).stops :=
  fun _ _ _ _ _ _ => ⟨le_max_left _ _, rfl⟩

/-- Counterexample for C4 as stated: on a 100-mile route with no stations,
the run starting with 5 gallons halts on the no-reachable-station failure
exit (ghost `failed` flag, destination estimate −5 gallons), while the run
starting with 85 gallons succeeds outright; both return the identical value
`{ stops := [], finalFuel := 75 }` — a failure halt is not distinguishable
in the returned value. -/
theorem c4_counterexample :
    (planRunOf taxiDist [] failRoute 5 100 10).failed = true ∧
    (planRunOf taxiDist [] failRoute 5 100 10).stops = [] ∧
    (5 : ℚ) - failRoute.distance / 10 < 0 ∧
    (planRunOf taxiDist [] failRoute 85 100 10).failed = false ∧
    (planRunOf taxiDist [] failRoute 85 100 10).stops = [] ∧
    (100 : ℚ) * destinationFuelTarget ≤ 85 - failRoute.distance / 10 ∧
    calculateFuelStops taxiDist [] failRoute 5 100 10 =
      calculateFuelStops taxiDist [] failRoute 85 100 10 := by
  refine ⟨by with_unfolding_all rfl, by with_unfolding_all rfl, ?_,
    by with_unfolding_all rfl, by with_unfolding_all rfl, ?_,
    by with_unfolding_all rfl⟩
  · norm_num [failRoute]
  · norm_num [failRoute, destinationFuelTarget]

/-- Claim C5 (corrected): degenerate route.  A zero-distance route does
short-circuit the loop and return an empty stop list, but the final fuel
estimate is `max (0.75 × tankCapacity) currentFuel`, not the caller-supplied
current fuel: the clamp applies here as everywhere (see
`c5_counterexample`). -/
theorem c5_degenerate_route :
    ∀ (geoDist : ℚ × ℚ → ℚ × ℚ → ℚ) (ds : List Station) (rt : RouteData)
      (f t m : ℚ), rt.distance = 0 →
      calculateFuelStops geoDist ds rt f t m =
        ⟨[], max (t * destinationFuelTarget) f⟩ := by
  intro geoDist ds rt f t m hd
  unfold calculateFuelStops planRunOf fuelLoopRun
  have hpos : ¬ ((initState f).pos < (planEnvOf geoDist ds rt t m).D) := by
    simp [initState, planEnvOf, hd]
  simp only [fuelLoopAux]
  rw [if_neg hpos]
  simp [initState, planEnvOf, hd]

/-- Witness for C5: a concrete zero-distance run returning
`max (0.75 × 100) 42 = 75`. -/
theorem c5_witness :
    calculateFuelStops taxiDist [] zeroRoute 42 100 10 =
      ⟨[], max (100 * destinationFuelTarget) 42⟩ :=
  c5_degenerate_route taxiDist [] zeroRoute 42 100 10 rfl

/-- Counterexample for C5 as stated: with 10 starting gallons on a
zero-distance route the returned final fuel estimate is 75
(= 0.75 × 100-gallon tank), not the caller-supplied 10. -/
theorem c5_counterexample :
    zeroRoute.distance = 0 ∧
    calculateFuelStops taxiDist [] zeroRoute 10 100 10 = ⟨[], 75⟩ ∧
    calculateFuelStops taxiDist [] zeroRoute 10 100 10 ≠ ⟨[], 10⟩ := by
  refine ⟨rfl, by with_unfolding_all rfl, ?_⟩
  intro h
  have h75 : calculateFuelStops taxiDist [] zeroRoute 10 100 10 =
      ({ stops := [], finalFuel := 75 } : PlanOutput) := by with_unfolding_all rfl
  rw [h75] at h
  have : (75 : ℚ) = 10 := congrArg PlanOutput.finalFuel h
  norm_num at this

theorem createStop_fillAmount (n : ℕ) (st : RStation) (g : ℤ) (fill fa : ℚ) :
    (createStopFromStation n st g fill fa).fillAmount = jsRound fill := rfl

theorem mem_stops_fuelLoopRun {env : PlanEnv} {s1 : LoopState} {p : Stop}
    (hp : p ∈ s1.stops) : p ∈ (fuelLoopRun env s1).stops := by
  obtain ⟨t, ht⟩ := fuelLoopRun_stops_extend env s1
  rw [ht]
  exact List.mem_append_left _ hp

/-- Claim C1 (corrected): border priority.  What holds on the code: whenever
the loop runs (`pos < D`), the border `find` locates a crossing with an
unused last-station-before-border, that station is strictly ahead and within
the usable range, and — the amendment — the rounded fill-to-full amount is
positive, the loop commits a stop at that station filling to full tank
capacity (`fillAmount = jsRound tank`).  No assumption about destination
reachability is made, so the check indeed precedes and overrides the
destination-reserve check.  Two parts of the claim as stated are false and
are dropped here: with a rounded fill amount of 0 gallons no stop is
committed even though all the claim's conditions hold, and the committed
station's position can lie beyond the recorded border distance when the
corridor sort's within-5-miles secondary ordering placed it before the
border-triggering station (see `c1_counterexample` for both). -/
theorem c1_border_priority :
    ∀ (env : PlanEnv) (s : LoopState) (c : Crossing) (st : RStation),
      s.pos < env.D →
      env.crossings.find? (borderFindPred s.pos s.used) = some c →
      c.lastStationBeforeBorder = some st →
      0 < st.distanceFromStart - s.pos →
      st.distanceFromStart - s.pos ≤ max 0 (s.fuel - minArrivalGallons) * env.mpg →
      0 < max 0 (jsRound (env.tank -
        (s.fuel - (st.distanceFromStart - s.pos) / env.mpg))) →
      ∃ p ∈ (fuelLoopRun env s).stops,
        p.station = st ∧ p.fillAmount = jsRound env.tank := by
  intro env s c st hpos hfind hlast hd hur hg
  rw [fuelLoopRun_unfold, if_pos hpos]
  simp only [planStep, hfind, hlast]
  rw [if_pos (And.intro hd hur), if_pos hg]
  exact ⟨_, mem_stops_fuelLoopRun
    (List.mem_append_right _ (List.mem_singleton.mpr rfl)), rfl, rfl⟩

/-- Witness for C1: on the `crossRoute2` run all border-priority hypotheses
hold concretely and the full-tank border stop is present in the output. -/
theorem c1_witness :
    ∃ p ∈ (fuelLoopRun (planEnvOf taxiDist crossStations2 crossRoute2 100 10)
        (initState 100)).stops,
      p.station = (⟨1, "OR", some 3, 8, 1/2⟩ : RStation) ∧
      p.fillAmount = jsRound (planEnvOf taxiDist crossStations2 crossRoute2 100 10).tank :=
  c1_border_priority (planEnvOf taxiDist crossStations2 crossRoute2 100 10) (initState 100)
    ⟨"CA", 4, ⟨2, "CA", some 4, 4, 2⟩, some ⟨1, "OR", some 3, 8, 1/2⟩⟩
    ⟨1, "OR", some 3, 8, 1/2⟩
    (by with_unfolding_all decide) (by with_unfolding_all rfl)
    (by with_unfolding_all rfl) (by with_unfolding_all decide)
    (by with_unfolding_all decide) (by with_unfolding_all decide)

/-- Counterexample for C1 as stated, exhibiting both failures.  Run 1
(`crossRoute1`): the border `find` locates the crossing into California at
mile 4 with the unused Oregon station at mile 2, the station is strictly
ahead and far within the usable range (2 ≤ 700), yet the output contains no
stop at all — the truck starts full, the fill rounds to 0 gallons, and the
check falls through to the destination check, which ends the run.  Run 2
(`crossRoute2`): the recorded border distance is mile 4 but the committed
full-tank border stop sits at mile 8 — not at a position "no later than the
border's along-route distance" — because the corridor sort's within-5-miles
secondary ordering placed the Oregon station (8 mi, 0.5 mi off route) before
the border-triggering California station (4 mi, 2 mi off route). -/
theorem c1_counterexample :
    ((planEnvOf taxiDist crossStations1 crossRoute1 100 10).crossings.find?
      (borderFindPred (initState 100).pos (initState 100).used)).map
        (fun c => (c.borderDistance, c.lastStationBeforeBorder.map
          fun st => st.distanceFromStart)) = some (4, some 2) ∧
    (0 : ℚ) < 2 - 0 ∧
    (2 : ℚ) - 0 ≤ max 0 (100 - minArrivalGallons) *
      (planEnvOf taxiDist crossStations1 crossRoute1 100 10).mpg ∧
    (calculateFuelStops taxiDist crossStations1 crossRoute1 100 100 10).stops = [] ∧
    (planEnvOf taxiDist crossStations2 crossRoute2 100 10).crossings.map
      (fun c => c.borderDistance) = [4] ∧
    (calculateFuelStops taxiDist crossStations2 crossRoute2 100 100 10).stops.map
      (fun p => (p.station.distanceFromStart, p.fillAmount)) = [(8, 100)] ∧
    ¬ ((8 : ℚ) ≤ 4) := by
  refine ⟨by with_unfolding_all rfl, by with_unfolding_all decide,
    by with_unfolding_all decide, by with_unfolding_all rfl,
    by with_unfolding_all rfl, by with_unfolding_all rfl,
    by with_unfolding_all decide⟩

theorem fuelLoopIters_le (env : PlanEnv) :
    ∀ (gas : ℕ) (s : LoopState),
      fuelLoopIters env gas s ≤ (allIdsF env \ s.used).card := by
  intro gas
  induction gas with
  | zero => intro s; exact Nat.zero_le _
  | succ g ih =>
    intro s
    simp only [fuelLoopIters]
    split
    · cases hstep : planStep env s with
      | done s1 => exact Nat.zero_le _
      | next s1 =>
        have hc := planStep_next_card hstep
        have h1 := ih s1
        show fuelLoopIters env g s1 + 1 ≤ (allIdsF env \ s.used).card
        omega
    · exact Nat.zero_le _

theorem allIdsF_card_le (geoDist : ℚ × ℚ → ℚ × ℚ → ℚ) (ds : List Station)
    (rt : RouteData) (t m : ℚ) :
    (allIdsF (planEnvOf geoDist ds rt t m)).card ≤
      (findStationsAlongRoute geoDist ds rt).length := by
  have hsub : allIdsF (planEnvOf geoDist ds rt t m) ⊆
      ((findStationsAlongRoute geoDist ds rt).map fun s => s.id).toFinset := by
    intro x hx
    unfold allIdsF at hx
    rw [List.mem_toFinset] at hx
    rw [List.mem_toFinset]
    rcases List.mem_append.mp hx with hx | hx
    · exact hx
    · rw [List.mem_map] at hx
      obtain ⟨st, hst, hid⟩ := hx
      rw [List.mem_filterMap] at hst
      obtain ⟨c, hc, hcl⟩ := hst
      have hm := @findStateBorderCrossings_last_mem
        (findStationsAlongRoute geoDist ds rt) highPriceStates _ _ hc hcl
      rw [List.mem_map]
      exact ⟨st, hm, hid⟩
  calc (allIdsF (planEnvOf geoDist ds rt t m)).card
      ≤ (((findStationsAlongRoute geoDist ds rt).map fun s => s.id).toFinset).card :=
        Finset.card_le_card hsub
    _ ≤ ((findStationsAlongRoute geoDist ds rt).map fun s => s.id).length :=
        List.toFinset_card_le _
    _ = (findStationsAlongRoute geoDist ds rt).length := List.length_map _ _

/-- Claim C6 (confirmed): termination.  Every continuing iteration of the
planning loop inserts a previously unused station id into `usedStations`
(see `planStep_next_insert`), so the number of continuing iterations is
bounded by the corridor station count — a fortiori by station count plus
committed stops — and any gas budget beyond the station count yields the
same final state: the loop always terminates within station-count
iterations. -/
theorem c6_termination :
    ∀ (geoDist : ℚ × ℚ → ℚ × ℚ → ℚ) (ds : List Station) (rt : RouteData)
      (tank mpg f : ℚ),
      (∀ gas, fuelLoopIters (planEnvOf geoDist ds rt tank mpg) gas (initState f) ≤
        (findStationsAlongRoute geoDist ds rt).length +
          (planRunOf geoDist ds rt f tank mpg).stops.length) ∧
      (∀ gas gas', (findStationsAlongRoute geoDist ds rt).length < gas →
        (findStationsAlongRoute geoDist ds rt).length < gas' →
        fuelLoopAux (planEnvOf geoDist ds rt tank mpg) gas (initState f) =
          fuelLoopAux (planEnvOf geoDist ds rt tank mpg) gas' (initState f)) := by
  intro geoDist ds rt tank mpg f
  have hcard : (allIdsF (planEnvOf geoDist ds rt tank mpg) \ (initState f).used).card ≤
      (findStationsAlongRoute geoDist ds rt).length :=
    le_trans (Finset.card_le_card Finset.sdiff_subset)
      (allIdsF_card_le geoDist ds rt tank mpg)
  constructor
  · intro gas
    have h1 := fuelLoopIters_le (planEnvOf geoDist ds rt tank mpg) gas (initState f)
    omega
  · intro gas gas' h h'
    exact fuelLoopAux_gas_irrelevant _ gas gas' _ (by omega) (by omega)

/-- Witness for C6: the two-station run's iteration count is within the
bound, and gas 3 and gas 7 (both beyond the 2 corridor stations) agree. -/
theorem c6_witness :
    fuelLoopIters (planEnvOf taxiDist twoStopStations twoStopRoute 100 10) 5
        (initState 100) ≤
      (findStationsAlongRoute taxiDist twoStopStations twoStopRoute).length +
        (planRunOf taxiDist twoStopStations twoStopRoute 100 100 10).stops.length ∧
    fuelLoopAux (planEnvOf taxiDist twoStopStations twoStopRoute 100 10) 3
        (initState 100) =
      fuelLoopAux (planEnvOf taxiDist twoStopStations twoStopRoute 100 10) 7
        (initState 100) :=
  ⟨(c6_termination taxiDist twoStopStations twoStopRoute 100 10 100).1 5,
   (c6_termination taxiDist twoStopStations twoStopRoute 100 10 100).2 3 7
     (by with_unfolding_all decide) (by with_unfolding_all decide)⟩

/-! ### Price tiers -/

theorem tier_region (x : Option ℚ) :
    (jsNum x ≤ excellentThreshold ∧ tierOf x = 0) ∨
    (excellentThreshold < jsNum x ∧ jsNum x ≤ goodThreshold ∧ tierOf x = 1) ∨
    (goodThreshold < jsNum x ∧ jsNum x ≤ fairThreshold ∧ tierOf x = 2) ∨
    (fairThreshold < jsNum x ∧ tierOf x = 3) := by
  unfold tierOf
  rcases le_or_lt (jsNum x) excellentThreshold with h1 | h1
  · exact Or.inl ⟨h1, if_pos h1⟩
  · rcases le_or_lt (jsNum x) goodThreshold with h2 | h2
    · exact Or.inr (Or.inl ⟨h1, h2, by rw [if_neg (not_le.mpr h1), if_pos h2]⟩)
    · rcases le_or_lt (jsNum x) fairThreshold with h3 | h3
      · refine Or.inr (Or.inr (Or.inl ⟨h2, h3, ?_⟩))
        rw [if_neg (not_le.mpr h1), if_neg (not_le.mpr h2), if_pos h3]
      · refine Or.inr (Or.inr (Or.inr ⟨h3, ?_⟩))
        rw [if_neg (not_le.mpr h1), if_neg (not_le.mpr h2), if_neg (not_le.mpr h3)]

theorem insertionSort_head?_eq_none {α : Type} (r : α → α → Prop) [DecidableRel r]
    {l : List α} : (List.insertionSort r l).head? = none ↔ l = [] := by
  rw [List.head?_eq_none_iff]
  constructor
  · intro h
    have := List.length_insertionSort r l
    rw [h] at this
    exact List.eq_nil_of_length_eq_zero this.symm
  · intro h
    rw [h]
    rfl

/-- Claim C7 (confirmed): selection-policy completeness.  Whenever some
station lies in the window `[minDistance, maxDistance]` and is not in the
exclusion set, `findBestStationInRange` returns such a station, and the
returned station belongs to the cheapest non-empty price tier under the
thresholds 2.95 / 3.30 / 3.60 (`tierOf`, with the JS coercion of a `null`
price to `0`, which lands null-priced stations in the excellent tier); it
returns `null` exactly when no candidate exists. -/
theorem c7_selection_policy :
    ∀ (minD maxD : ℚ) (stations : List RStation) (used : Finset ℕ),
      (findBestStationInRange minD maxD stations used = none ↔
        ∀ s ∈ stations, ¬(s.id ∉ used ∧ minD ≤ s.distanceFromStart ∧
          s.distanceFromStart ≤ maxD)) ∧
      (∀ st, findBestStationInRange minD maxD stations used = some st →
        (st ∈ stations ∧ st.id ∉ used ∧ minD ≤ st.distanceFromStart ∧
          st.distanceFromStart ≤ maxD) ∧
        ∀ s ∈ stations, s.id ∉ used → minD ≤ s.distanceFromStart →
          s.distanceFromStart ≤ maxD → tierOf st.price ≤ tierOf s.price) := by
  intro minD maxD stations used
  constructor
  · constructor
    · intro hnone s hs hpred
      simp only [findBestStationInRange] at hnone
      split at hnone
      · rename_i hempty
        rw [List.isEmpty_iff] at hempty
        have hsR : s ∈ stations.filter fun s =>
            decide (s.id ∉ used) && decide (minD ≤ s.distanceFromStart) &&
              decide (s.distanceFromStart ≤ maxD) := by
          rw [List.mem_filter]
          refine ⟨hs, ?_⟩
          simp only [Bool.and_eq_true, decide_eq_true_eq]
          tauto
        rw [hempty] at hsR
        simp at hsR
      · rename_i hempty
        rw [insertionSort_head?_eq_none] at hnone
        have hsR : s ∈ stations.filter fun s =>
            decide (s.id ∉ used) && decide (minD ≤ s.distanceFromStart) &&
              decide (s.distanceFromStart ≤ maxD) := by
          rw [List.mem_filter]
          refine ⟨hs, ?_⟩
          simp only [Bool.and_eq_true, decide_eq_true_eq]
          tauto
        repeat' split at hnone
        · rename_i hne
          exact hne (by rw [hnone]; rfl)
        · rename_i h1 hne
          exact hne (by rw [hnone]; rfl)
        · rename_i h1 h2 hne
          exact hne (by rw [hnone]; rfl)
        · rename_i h1 h2 h3
          rw [not_not, List.isEmpty_iff] at h1 h2 h3
          rcases tier_region s.price with ⟨h0, -⟩ | ⟨ha, hb, -⟩ | ⟨ha, hb, -⟩ | ⟨ha, -⟩
          · have : s ∈ (stations.filter fun s =>
                decide (s.id ∉ used) && decide (minD ≤ s.distanceFromStart) &&
                  decide (s.distanceFromStart ≤ maxD)).filter fun s =>
                decide (jsNum s.price ≤ excellentThreshold) := by
              rw [List.mem_filter]
              exact ⟨hsR, by simpa using h0⟩
            rw [h1] at this
            simp at this
          · have : s ∈ (stations.filter fun s =>
                decide (s.id ∉ used) && decide (minD ≤ s.distanceFromStart) &&
                  decide (s.distanceFromStart ≤ maxD)).filter fun s =>
                decide (excellentThreshold < jsNum s.price) &&
                  decide (jsNum s.price ≤ goodThreshold) := by
              rw [List.mem_filter]
              refine ⟨hsR, ?_⟩
              simp only [Bool.and_eq_true, decide_eq_true_eq]
              exact ⟨ha, hb⟩
            rw [h2] at this
            simp at this
          · have : s ∈ (stations.filter fun s =>
                decide (s.id ∉ used) && decide (minD ≤ s.distanceFromStart) &&
                  decide (s.distanceFromStart ≤ maxD)).filter fun s =>
                decide (goodThreshold < jsNum s.price) &&
                  decide (jsNum s.price ≤ fairThreshold) := by
              rw [List.mem_filter]
              refine ⟨hsR, ?_⟩
              simp only [Bool.and_eq_true, decide_eq_true_eq]
              exact ⟨ha, hb⟩
            rw [h3] at this
            simp at this
          · have : s ∈ (stations.filter fun s =>
                decide (s.id ∉ used) && decide (minD ≤ s.distanceFromStart) &&
                  decide (s.distanceFromStart ≤ maxD)).filter fun s =>
                decide (fairThreshold < jsNum s.price) := by
              rw [List.mem_filter]
              exact ⟨hsR, by simpa using ha⟩
            rw [hnone] at this
            simp at this
    · intro hall
      have hRnil : stations.filter (fun s =>
          decide (s.id ∉ used) && decide (minD ≤ s.distanceFromStart) &&
            decide (s.distanceFromStart ≤ maxD)) = [] := by
        rw [List.filter_eq_nil_iff]
        intro s hs
        simp only [Bool.and_eq_true, decide_eq_true_eq, not_and]
        intro h1 h2
        exact hall s hs ⟨h1.1, h1.2, h2⟩
      simp only [findBestStationInRange]
      rw [if_pos (by rw [hRnil]; rfl)]
  · intro st hsome
    obtain ⟨hst_mem, hst_used, hst_ge, hst_le⟩ := findBestStationInRange_some hsome
    refine ⟨⟨hst_mem, hst_used, hst_ge, hst_le⟩, ?_⟩
    intro s hs hsu hsge hsle
    have hsR : s ∈ stations.filter fun s =>
        decide (s.id ∉ used) && decide (minD ≤ s.distanceFromStart) &&
          decide (s.distanceFromStart ≤ maxD) := by
      rw [List.mem_filter]
      refine ⟨hs, ?_⟩
      simp only [Bool.and_eq_true, decide_eq_true_eq]
      tauto
    simp only [findBestStationInRange] at hsome
    split at hsome
    · exact absurd hsome (by simp)
    · have hstc := head?_insertionSort_mem _ hsome
      repeat' split at hstc
      · rename_i hexcne
        have hp := (List.mem_filter.mp hstc).2
        simp only [decide_eq_true_eq] at hp
        have ht : tierOf st.price = 0 := by unfold tierOf; rw [if_pos hp]
        rw [ht]
        exact Nat.zero_le _
      · rename_i hexc hgoone
        rw [not_not, List.isEmpty_iff] at hexc
        have hp := (List.mem_filter.mp hstc).2
        simp only [Bool.and_eq_true, decide_eq_true_eq] at hp
        have ht : tierOf st.price = 1 := by
          unfold tierOf
          rw [if_neg (not_le.mpr hp.1), if_pos hp.2]
        rw [ht]
        rcases tier_region s.price with ⟨h0, -⟩ | ⟨-, -, hts⟩ | ⟨-, -, hts⟩ | ⟨-, hts⟩
        · exfalso
          have : s ∈ (stations.filter fun s =>
              decide (s.id ∉ used) && decide (minD ≤ s.distanceFromStart) &&
                decide (s.distanceFromStart ≤ maxD)).filter fun s =>
              decide (jsNum s.price ≤ excellentThreshold) := by
            rw [List.mem_filter]
            exact ⟨hsR, by simpa using h0⟩
          rw [hexc] at this
          simp at this
        · omega
        · omega
        · omega
      · rename_i hexc hgoo hfaine
        rw [not_not, List.isEmpty_iff] at hexc hgoo
        have hp := (List.mem_filter.mp hstc).2
        simp only [Bool.and_eq_true, decide_eq_true_eq] at hp
        have ht : tierOf st.price = 2 := by
          unfold tierOf
          have h1 : excellentThreshold < jsNum st.price := by
            have : excellentThreshold < goodThreshold := by
              norm_num [excellentThreshold, goodThreshold]
            linarith [hp.1]
          rw [if_neg (not_le.mpr h1), if_neg (not_le.mpr hp.1), if_pos hp.2]
        rw [ht]
        rcases tier_region s.price with ⟨h0, -⟩ | ⟨ha, hb, -⟩ | ⟨-, -, hts⟩ | ⟨-, hts⟩
        · exfalso
          have : s ∈ (stations.filter fun s =>
              decide (s.id ∉ used) && decide (minD ≤ s.distanceFromStart) &&
                decide (s.distanceFromStart ≤ maxD)).filter fun s =>
              decide (jsNum s.price ≤ excellentThreshold) := by
            rw [List.mem_filter]
            exact ⟨hsR, by simpa using h0⟩
          rw [hexc] at this
          simp at this
        · exfalso
          have : s ∈ (stations.filter fun s =>
              decide (s.id ∉ used) && decide (minD ≤ s.distanceFromStart) &&
                decide (s.distanceFromStart ≤ maxD)).filter fun s =>
              decide (excellentThreshold < jsNum s.price) &&
                decide (jsNum s.price ≤ goodThreshold) := by
            rw [List.mem_filter]
            refine ⟨hsR, ?_⟩
            simp only [Bool.and_eq_true, decide_eq_true_eq]
            exact ⟨ha, hb⟩
          rw [hgoo] at this
          simp at this
        · omega
        · omega
      · rename_i hexc hgoo hfai
        rw [not_not, List.isEmpty_iff] at hexc hgoo hfai
        have hp := (List.mem_filter.mp hstc).2
        simp only [decide_eq_true_eq] at hp
        have ht : tierOf st.price = 3 := by
          unfold tierOf
          have hef : excellentThreshold < fairThreshold := by
            norm_num [excellentThreshold, fairThreshold]
          have hgf : goodThreshold < fairThreshold := by
            norm_num [goodThreshold, fairThreshold]
          rw [if_neg (not_le.mpr (by linarith)), if_neg (not_le.mpr (by linarith)),
            if_neg (not_le.mpr hp)]
        rw [ht]
        rcases tier_region s.price with ⟨h0, -⟩ | ⟨ha, hb, -⟩ | ⟨ha, hb, -⟩ | ⟨-, hts⟩
        · exfalso
          have : s ∈ (stations.filter fun s =>
              decide (s.id ∉ used) && decide (minD ≤ s.distanceFromStart) &&
                decide (s.distanceFromStart ≤ maxD)).filter fun s =>
              decide (jsNum s.price ≤ excellentThreshold) := by
            rw [List.mem_filter]
            exact ⟨hsR, by simpa using h0⟩
          rw [hexc] at this
          simp at this
        · exfalso
          have : s ∈ (stations.filter fun s =>
              decide (s.id ∉ used) && decide (minD ≤ s.distanceFromStart) &&
                decide (s.distanceFromStart ≤ maxD)).filter fun s =>
              decide (excellentThreshold < jsNum s.price) &&
                decide (jsNum s.price ≤ goodThreshold) := by
            rw [List.mem_filter]
            refine ⟨hsR, ?_⟩
            simp only [Bool.and_eq_true, decide_eq_true_eq]
            exact ⟨ha, hb⟩
          rw [hgoo] at this
          simp at this
        · exfalso
          have : s ∈ (stations.filter fun s =>
              decide (s.id ∉ used) && decide (minD ≤ s.distanceFromStart) &&
                decide (s.distanceFromStart ≤ maxD)).filter fun s =>
              decide (goodThreshold < jsNum s.price) &&
                decide (jsNum s.price ≤ fairThreshold) := by
            rw [List.mem_filter]
            refine ⟨hsR, ?_⟩
            simp only [Bool.and_eq_true, decide_eq_true_eq]
            exact ⟨ha, hb⟩
          rw [hfai] at this
          simp at this
        · omega

theorem c7_witness :
    ∃ st, findBestStationInRange 0 100 tierStations ∅ = some st ∧
      st ∈ tierStations ∧ st.id ∉ (∅ : Finset ℕ) ∧
      (0 : ℚ) ≤ st.distanceFromStart ∧ st.distanceFromStart ≤ 100 ∧
      ∀ s ∈ tierStations, s.id ∉ (∅ : Finset ℕ) → (0 : ℚ) ≤ s.distanceFromStart →
        s.distanceFromStart ≤ 100 → tierOf st.price ≤ tierOf s.price := by
  refine ⟨⟨2, "NV", some (5/2), 60, 0⟩, by with_unfolding_all rfl, ?_⟩
  have h := (c7_selection_policy 0 100 tierStations ∅).2
    ⟨2, "NV", some (5/2), 60, 0⟩ (by with_unfolding_all rfl)
  exact ⟨h.1.1, h.1.2.1, h.1.2.2.1, h.1.2.2.2, h.2⟩

/-! ### C8 infrastructure: the closest-point scan and corridor annotation -/

theorem alongLe_total : ∀ a b : RStation, alongLe a b ∨ alongLe b a := by
  intro a b
  unfold alongLe alongCmp
  rw [abs_sub_comm b.distanceFromStart a.distanceFromStart]
  split
  · rcases le_total a.distanceFromRoute b.distanceFromRoute with h | h
    · exact Or.inl (by linarith)
    · exact Or.inr (by linarith)
  · rcases le_total a.distanceFromStart b.distanceFromStart with h | h
    · exact Or.inl (by linarith)
    · exact Or.inr (by linarith)

theorem closestPointScan_go (d : ℚ × ℚ → ℚ) (cs : List (ℚ × ℚ)) :
    ∀ (i : ℕ) (m : ℚ) (j : ℕ),
      ∃ p, closestPointScan d cs i (some (m, j)) = some p ∧
        p.1 ≤ m ∧ (∀ k (hk : k < cs.length), p.1 ≤ d (cs.get ⟨k, hk⟩)) ∧
        ((p.1 = m ∧ p.2 = j) ∨
          ∃ k, ∃ hk : k < cs.length, p.2 = i + k ∧ d (cs.get ⟨k, hk⟩) = p.1 ∧
            p.1 < m ∧ ∀ l (hl : l < k), p.1 < d (cs.get ⟨l, Nat.lt_trans hl hk⟩)) := by
  induction cs with
  | nil =>
    intro i m j
    exact ⟨(m, j), rfl, le_refl m, fun k hk => absurd hk (Nat.not_lt_zero k),
      Or.inl ⟨rfl, rfl⟩⟩
  | cons c rest ih =>
    intro i m j
    by_cases hc : d c < m
    · obtain ⟨p, hp, hple, hbound, hcase⟩ := ih (i + 1) (d c) i
      refine ⟨p, ?_, le_trans hple (le_of_lt hc), ?_, ?_⟩
      · simp only [closestPointScan]
        rw [if_pos hc]
        exact hp
      · intro k hk
        cases k with
        | zero => exact hple
        | succ k' => exact hbound k' (Nat.lt_of_succ_lt_succ hk)
      · rcases hcase with ⟨hm, hj⟩ | ⟨k, hk, hjk, hdk, hlt, hfirst⟩
        · right
          refine ⟨0, Nat.succ_pos _, by omega, hm.symm, ?_, ?_⟩
          · rw [hm]; exact hc
          · intro l hl; exact absurd hl (Nat.not_lt_zero l)
        · right
          refine ⟨k + 1, Nat.succ_lt_succ hk, by omega, hdk, lt_trans hlt hc, ?_⟩
          intro l hl
          cases l with
          | zero => exact hlt
          | succ l' => exact hfirst l' (Nat.lt_of_succ_lt_succ hl)
    · obtain ⟨p, hp, hple, hbound, hcase⟩ := ih (i + 1) m j
      refine ⟨p, ?_, hple, ?_, ?_⟩
      · simp only [closestPointScan]
        rw [if_neg hc]
        exact hp
      · intro k hk
        cases k with
        | zero => exact le_trans hple (not_lt.mp hc)
        | succ k' => exact hbound k' (Nat.lt_of_succ_lt_succ hk)
      · rcases hcase with ⟨hm, hj⟩ | ⟨k, hk, hjk, hdk, hlt, hfirst⟩
        · exact Or.inl ⟨hm, hj⟩
        · right
          refine ⟨k + 1, Nat.succ_lt_succ hk, by omega, hdk, hlt, ?_⟩
          intro l hl
          cases l with
          | zero => exact lt_of_lt_of_le hlt (not_lt.mp hc)
          | succ l' => exact hfirst l' (Nat.lt_of_succ_lt_succ hl)

theorem closestPointScan_first_min (d : ℚ × ℚ → ℚ) (cs : List (ℚ × ℚ))
    (hcs : cs ≠ []) :
    ∃ m j, closestPointScan d cs 0 none = some (m, j) ∧
      ∃ hj : j < cs.length, d (cs.get ⟨j, hj⟩) = m ∧
        (∀ k (hk : k < cs.length), m ≤ d (cs.get ⟨k, hk⟩)) ∧
        ∀ l (hl : l < j), m < d (cs.get ⟨l, Nat.lt_trans hl hj⟩) := by
  obtain ⟨c, rest, rfl⟩ := List.exists_cons_of_ne_nil hcs
  obtain ⟨⟨m', j'⟩, hp, hple, hbound, hcase⟩ := closestPointScan_go d rest 1 (d c) 0
  refine ⟨m', j', ?_, ?_⟩
  · simp only [closestPointScan]
    exact hp
  · rcases hcase with ⟨hm, hj⟩ | ⟨k, hk, hjk, hdk, hlt, hfirst⟩
    · subst hm; subst hj
      refine ⟨Nat.succ_pos _, rfl, ?_, ?_⟩
      · intro k hk
        cases k with
        | zero => exact le_refl _
        | succ k' => exact hbound k' (Nat.lt_of_succ_lt_succ hk)
      · intro l hl; exact absurd hl (Nat.not_lt_zero l)
    · rw [Nat.add_comm] at hjk
      subst hjk
      refine ⟨Nat.succ_lt_succ hk, hdk, ?_, ?_⟩
      · intro k' hk'
        cases k' with
        | zero => exact le_of_lt hlt
        | succ k'' => exact hbound k'' (Nat.lt_of_succ_lt_succ hk')
      · intro l hl
        cases l with
        | zero => exact hlt
        | succ l' => exact hfirst l' (Nat.lt_of_succ_lt_succ hl)

theorem annotateStation_some_spec (geoDist : ℚ × ℚ → ℚ × ℚ → ℚ) (rt : RouteData)
    (st : Station) (r : RStation) (h : annotateStation geoDist rt st = some r) :
    r.id = st.id ∧ r.state = st.state ∧ r.price = st.price ∧
    r.distanceFromRoute ≤ routeBuffer ∧
    ∃ j, ∃ hj : j < rt.coordinates.length,
      geoDist (st.lat, st.lng) (rt.coordinates.get ⟨j, hj⟩) = r.distanceFromRoute ∧
      (∀ k (hk : k < rt.coordinates.length),
        r.distanceFromRoute ≤ geoDist (st.lat, st.lng) (rt.coordinates.get ⟨k, hk⟩)) ∧
      (∀ l (hl : l < j), r.distanceFromRoute <
        geoDist (st.lat, st.lng) (rt.coordinates.get ⟨l, Nat.lt_trans hl hj⟩)) ∧
      r.distanceFromStart = ((j : ℚ) / ((rt.coordinates.length : ℚ) - 1)) * rt.distance := by
  have hne : rt.coordinates ≠ [] := by
    intro hnil
    rw [annotateStation, hnil] at h
    simp only [closestPointScan] at h
    exact Option.noConfusion h
  obtain ⟨m, j, hscan, hj, hdj, hbound, hfirst⟩ :=
    closestPointScan_first_min (fun c => geoDist (st.lat, st.lng) c) rt.coordinates hne
  have hred : annotateStation geoDist rt st = (if m ≤ routeBuffer then
      some { id := st.id, state := st.state, price := st.price,
             distanceFromStart := ((j : ℚ) / ((rt.coordinates.length : ℚ) - 1)) * rt.distance,
             distanceFromRoute := m } else none) := by
    rw [annotateStation, hscan]
  rw [hred] at h
  split at h
  · rename_i hbuf
    cases h
    exact ⟨rfl, rfl, rfl, hbuf, j, hj, hdj, hbound, hfirst, rfl⟩
  · exact Option.noConfusion h

theorem annotateStation_some_of_near (geoDist : ℚ × ℚ → ℚ × ℚ → ℚ)
    (rt : RouteData) (st : Station) (k : ℕ) (hk : k < rt.coordinates.length)
    (hnear : geoDist (st.lat, st.lng) (rt.coordinates.get ⟨k, hk⟩) ≤ routeBuffer) :
    ∃ r, annotateStation geoDist rt st = some r := by
  have hne : rt.coordinates ≠ [] := by
    intro hnil
    rw [hnil] at hk
    exact absurd hk (Nat.not_lt_zero k)
  obtain ⟨m, j, hscan, hj, hdj, hbound, hfirst⟩ :=
    closestPointScan_first_min (fun c => geoDist (st.lat, st.lng) c) rt.coordinates hne
  have hm3 : m ≤ routeBuffer := le_trans (hbound k hk) hnear
  refine ⟨{ id := st.id, state := st.state, price := st.price,
            distanceFromStart := ((j : ℚ) / ((rt.coordinates.length : ℚ) - 1)) * rt.distance,
            distanceFromRoute := m }, ?_⟩
  have hred : annotateStation geoDist rt st = (if m ≤ routeBuffer then
      some { id := st.id, state := st.state, price := st.price,
             distanceFromStart := ((j : ℚ) / ((rt.coordinates.length : ℚ) - 1)) * rt.distance,
             distanceFromRoute := m } else none) := by
    rw [annotateStation, hscan]
  rw [hred]
  exact if_pos hm3

/-- Claim C8 (corrected): corridor filter output and annotation.
`findStationsAlongRoute` retains exactly the stations whose minimum distance
to the polyline is at most the 3-mile buffer; each retained station is
annotated with `distanceFromRoute` equal to that minimum (attained at the
first nearest polyline index `j`) and
`distanceFromStart = j / (pointCount − 1) × totalDistance`; an empty station
list or empty polyline yields an empty result; and every adjacent pair of the
output satisfies the sort comparator `alongLe` (by `distanceFromStart`,
except that stations within 5 miles of each other along the route compare by
`distanceFromRoute`).  The original claim's "sorted ascending by
`distanceFromStart`" is false: the within-5-miles secondary rule can place a
farther-along station first (see the counterexample). -/
theorem c8_corridor_filter :
    ∀ (geoDist : ℚ × ℚ → ℚ × ℚ → ℚ) (dataset : List Station) (rt : RouteData),
      (dataset = [] → findStationsAlongRoute geoDist dataset rt = []) ∧
      (rt.coordinates = [] → findStationsAlongRoute geoDist dataset rt = []) ∧
      (∀ r, r ∈ findStationsAlongRoute geoDist dataset rt ↔
        ∃ st ∈ dataset, annotateStation geoDist rt st = some r) ∧
      (∀ st r, annotateStation geoDist rt st = some r →
        r.id = st.id ∧ r.state = st.state ∧ r.price = st.price ∧
        r.distanceFromRoute ≤ routeBuffer ∧
        ∃ j, ∃ hj : j < rt.coordinates.length,
          geoDist (st.lat, st.lng) (rt.coordinates.get ⟨j, hj⟩) = r.distanceFromRoute ∧
          (∀ k (hk : k < rt.coordinates.length),
            r.distanceFromRoute ≤ geoDist (st.lat, st.lng) (rt.coordinates.get ⟨k, hk⟩)) ∧
          (∀ l (hl : l < j), r.distanceFromRoute <
            geoDist (st.lat, st.lng) (rt.coordinates.get ⟨l, Nat.lt_trans hl hj⟩)) ∧
          r.distanceFromStart =
            ((j : ℚ) / ((rt.coordinates.length : ℚ) - 1)) * rt.distance) ∧
      (∀ st ∈ dataset, ∀ k (hk : k < rt.coordinates.length),
        geoDist (st.lat, st.lng) (rt.coordinates.get ⟨k, hk⟩) ≤ routeBuffer →
        ∃ r, annotateStation geoDist rt st = some r ∧
          r ∈ findStationsAlongRoute geoDist dataset rt) ∧
      List.Chain' alongLe (findStationsAlongRoute geoDist dataset rt) := by
  intro geoDist dataset rt
  refine ⟨?_, ?_, ?_, ?_, ?_, ?_⟩
  · intro h
    rw [h]
    rfl
  · intro hco
    have hnone : ∀ st, annotateStation geoDist rt st = none := by
      intro st
      rw [annotateStation, hco]
      with_unfolding_all rfl
    have : dataset.filterMap (annotateStation geoDist rt) = [] := by
      rw [List.filterMap_eq_nil_iff]
      intro a _
      exact hnone a
    rw [findStationsAlongRoute, this]
    rfl
  · intro r
    rw [findStationsAlongRoute, List.mem_insertionSort, List.mem_filterMap]
  · intro st r h
    exact annotateStation_some_spec geoDist rt st r h
  · intro st hst k hk hnear
    obtain ⟨r, hr⟩ := annotateStation_some_of_near geoDist rt st k hk hnear
    refine ⟨r, hr, ?_⟩
    rw [findStationsAlongRoute, List.mem_insertionSort, List.mem_filterMap]
    exact ⟨st, hst, hr⟩
  · exact chain'_insertionSort alongLe alongLe_total _

theorem c8_counterexample :
    ((findStationsAlongRoute taxiDist unsortedStations unsortedRoute).map
        fun r => r.distanceFromStart) = [4, 0] ∧
    ¬ List.Chain' (fun a b : RStation => a.distanceFromStart ≤ b.distanceFromStart)
        (findStationsAlongRoute taxiDist unsortedStations unsortedRoute) := by
  constructor
  · with_unfolding_all rfl
  · have hlist : findStationsAlongRoute taxiDist unsortedStations unsortedRoute =
        [⟨2, "NV", some 3, 4, 0⟩, ⟨1, "NV", some 3, 0, 3⟩] := by
      with_unfolding_all rfl
    rw [hlist]
    intro hch
    exact absurd (List.chain'_cons.mp hch).1 (by with_unfolding_all decide)

theorem c8_witness :
    ∃ r, annotateStation taxiDist unsortedRoute ⟨2, 1, 0, "NV", some 3⟩ = some r ∧
      r ∈ findStationsAlongRoute taxiDist unsortedStations unsortedRoute := by
  exact (c8_corridor_filter taxiDist unsortedStations unsortedRoute).2.2.2.2.1
    ⟨2, 1, 0, "NV", some 3⟩ (by with_unfolding_all decide) 1
    (by with_unfolding_all decide) (by with_unfolding_all decide)
